import Mathlib

/-!
# libzim: Fileheader codec and validator, FilePart

A shallow embedding of `src/fileheader.cpp` (the 80-byte ZIM header: `operator<<`,
`Fileheader::read`, `Fileheader::sanity_check`) and of the inline members of
`src/file_part.h`, followed by the properties proved about them. The two chunk-size
members declared in `include/zim/writer/zimcreator.h` have no body among the sources and
are modelled from the specification.

Conventions of the embedding:
* a byte is a `Fin 256`; a buffer or a stream chunk is a `List Byte`;
* the integer fields of the header are `Nat`, their C++ width is recorded by
  `Fileheader.wf` (`size_type` is 32 bits wide, `offset_type` is 64 bits wide);
* a method that mutates `*this` and may throw returns the pair of its outcome and
  of the state of the object when control leaves the method;
* every `throw` statement of the file is a constructor of `ThrowSite`; the thrown
  `ZimFileFormatError` is observed through its message, `ThrowSite.what`.
-/

namespace zim

/-! ## Bytes, little-endian helpers, buffers -/

/-- One `char` of a header or of a buffer. -/
abbrev Byte := Fin 256

/-- Modelled from the spec: `endian_tools.h` is not among the sources. The spec fixes the
header as a "fixed little-endian layout"; `toLittleEndian(d, dst)` for a type of `width`
bytes stores the least significant byte of `d` first, then shifts `d` right by eight bits,
`width` times. The result is the list of bytes stored at `dst`. -/
def toLittleEndian : Nat → Nat → List Byte
  | 0, _ => []
  | width + 1, d => ⟨d % 256, Nat.mod_lt d (by decide)⟩ :: toLittleEndian width (d / 256)

/-- Modelled from the spec: `endian_tools.h` is not among the sources. Inverse reading of the
"fixed little-endian layout": the first byte is the least significant one. -/
def fromLittleEndian : List Byte → Nat
  | [] => 0
  | b :: bs => b.val + 256 * fromLittleEndian bs

/-- Modelled from the spec: `buffer.h` is not among the sources. A buffer is the sequence of
its bytes. -/
abbrev Buffer := List Byte

/-- Modelled from the spec: `buffer.h` is not among the sources. `buffer->data(from)` up to
`buffer->data(to)`: the bytes at offsets `from`, ..., `to - 1`. -/
def Buffer.data (buffer : Buffer) (start stop : Nat) : List Byte :=
  (buffer.drop start).take (stop - start)

/-- Modelled from the spec: `buffer.h` is not among the sources. `buffer->as<T>(offset)` for
a type `T` of `width` bytes: "decode every field per the layout", the little-endian value of
the `width` bytes starting at `offset`. -/
def Buffer.as (buffer : Buffer) (width offset : Nat) : Nat :=
  fromLittleEndian (buffer.data offset (offset + width))

/-- Stores `src` into the array `dst` starting at index `pos` (what `toLittleEndian(v, dst + pos)`
and `std::copy(first, last, dst + pos)` do to `dst`). -/
def writeAt (dst : List Byte) (pos : Nat) (src : List Byte) : List Byte :=
  dst.take pos ++ src ++ dst.drop (pos + src.length)

/-! ## Types and constants of the header -/

/-- Modelled from the spec: `zim/zim.h` is not among the sources. Width in bytes of `size_type`
(the fields at offsets 0, 24, 28, 64, 68 of the layout are four bytes apart from the next). -/
def sizeof_size_type : Nat := 4

/-- Modelled from the spec: `zim/zim.h` is not among the sources. Width in bytes of
`offset_type` (the fields at offsets 32, 40, 48, 56, 72 are eight bytes wide). -/
def sizeof_offset_type : Nat := 8

/-- Width in bytes of `uint16_t`. -/
def sizeof_uint16_t : Nat := 2

/-- Width in bytes of `Uuid` (`sizeof(Uuid)`, the header bytes 8 to 23). -/
def sizeof_Uuid : Nat := 16

/-- `Fileheader::zimMagic`. -/
def Fileheader.zimMagic : Nat := 0x044d495a

/-- `Fileheader::zimMajorVersion`. -/
def Fileheader.zimMajorVersion : Nat := 5

/-- `Fileheader::zimMinorVersion`. -/
def Fileheader.zimMinorVersion : Nat := 0

/-- `Fileheader::size`. -/
def Fileheader.size : Nat := 80

/-- Modelled from the spec: `zim/fileheader.h` is not among the sources. The data members of
`Fileheader`, with the names `sanity_check` uses (`blobCount` is the cluster count and
`blobPtrPos` the cluster pointer position); the setters and getters called by `read` and
`operator<<` store and return these members. -/
structure Fileheader where
  uuid : List Byte
  articleCount : Nat
  titleIdxPos : Nat
  urlPtrPos : Nat
  blobCount : Nat
  blobPtrPos : Nat
  mainPage : Nat
  layoutPage : Nat
  checksumPos : Nat
  mimeListPos : Nat
  deriving DecidableEq, Repr

/-- The values a C++ `Fileheader` object can hold: a 16-byte uuid, 32-bit `size_type` members
and 64-bit `offset_type` members. -/
def Fileheader.wf (fh : Fileheader) : Prop :=
  fh.uuid.length = sizeof_Uuid ∧
  fh.articleCount < 2 ^ 32 ∧ fh.blobCount < 2 ^ 32 ∧
  fh.urlPtrPos < 2 ^ 64 ∧ fh.titleIdxPos < 2 ^ 64 ∧ fh.blobPtrPos < 2 ^ 64 ∧
  fh.mimeListPos < 2 ^ 64 ∧
  fh.mainPage < 2 ^ 32 ∧ fh.layoutPage < 2 ^ 32 ∧
  fh.checksumPos < 2 ^ 64

instance (fh : Fileheader) : Decidable fh.wf := by
  unfold Fileheader.wf; infer_instance

/-! ## Exceptions -/

/-- The `throw ZimFileFormatError(...)` statements of `fileheader.cpp`, in source order:
three in `Fileheader::read` and seven in `Fileheader::sanity_check`. -/
inductive ThrowSite where
  | magic
  | majorVersion
  | minorVersion
  | articleCluster
  | mimeListPos
  | urlPtrPos
  | titleIdxPos
  | clusterPtrPos
  | clusterCount
  | checksumPos
  deriving DecidableEq, Repr

/-- The message given to `ZimFileFormatError` by each `throw` statement. -/
def ThrowSite.what : ThrowSite → String
  | .magic => "Invalid magic number"
  | .majorVersion => "Invalid version"
  | .minorVersion => "Invalid version"
  | .articleCluster => "No article <=> No cluster"
  | .mimeListPos => "mimelistPos must be 80."
  | .urlPtrPos => "urlPtrPos must be > mimelistPos."
  | .titleIdxPos => "titleIdxPos must be > mimelistPos."
  | .clusterPtrPos => "clusterPtrPos must be > mimelistPos."
  | .clusterCount => "Cluster count cannot be higher than article count."
  | .checksumPos => "checksumPos must be > mimeListPos."

/-- Outcome seen by the caller: normal return, or the message of the exception thrown. -/
def ThrowSite.outcome : Option ThrowSite → Except String Unit
  | none => .ok ()
  | some site => .error site.what

/-! ## `operator<<` -/

/-- The body of `operator<<` up to `out.write`: the content of the local array `header` after
the thirteen stores, `uninit` being the content of the array before them. -/
def Fileheader.fill (uninit : List Byte) (fh : Fileheader) : List Byte :=
  let header := writeAt uninit 0 (toLittleEndian sizeof_size_type Fileheader.zimMagic)
  let header := writeAt header 4 (toLittleEndian sizeof_uint16_t Fileheader.zimMajorVersion)
  let header := writeAt header 6 (toLittleEndian sizeof_uint16_t Fileheader.zimMinorVersion)
  let header := writeAt header 8 fh.uuid
  let header := writeAt header 24 (toLittleEndian sizeof_size_type fh.articleCount)
  let header := writeAt header 28 (toLittleEndian sizeof_size_type fh.blobCount)
  let header := writeAt header 32 (toLittleEndian sizeof_offset_type fh.urlPtrPos)
  let header := writeAt header 40 (toLittleEndian sizeof_offset_type fh.titleIdxPos)
  let header := writeAt header 48 (toLittleEndian sizeof_offset_type fh.blobPtrPos)
  let header := writeAt header 56 (toLittleEndian sizeof_offset_type fh.mimeListPos)
  let header := writeAt header 64 (toLittleEndian sizeof_size_type fh.mainPage)
  let header := writeAt header 68 (toLittleEndian sizeof_size_type fh.layoutPage)
  let header := writeAt header 72 (toLittleEndian sizeof_offset_type fh.checksumPos)
  header

/-- `operator<<(out, fh)`: the bytes appended to `out` by `out.write(header, Fileheader::size)`.
The local array starts here as 80 zero bytes; every one of them is overwritten by the stores
(`fill_eq`), so the start content is irrelevant. -/
def operator_shl (fh : Fileheader) : List Byte :=
  (Fileheader.fill (List.replicate Fileheader.size 0) fh).take Fileheader.size

/-! ## `Fileheader::sanity_check` and `Fileheader::read` -/

/-- `Fileheader::sanity_check`, as the `throw` statement it reaches (`none`: it returns). -/
def Fileheader.sanity_check_site (fh : Fileheader) : Option ThrowSite :=
  if ((fh.articleCount != 0) != (fh.blobCount != 0)) then some .articleCluster
  else if fh.mimeListPos ≠ Fileheader.size ∧ fh.mimeListPos ≠ 72 then some .mimeListPos
  else if fh.urlPtrPos < fh.mimeListPos then some .urlPtrPos
  else if fh.titleIdxPos < fh.mimeListPos then some .titleIdxPos
  else if fh.blobPtrPos < fh.mimeListPos then some .clusterPtrPos
  else if fh.blobCount > fh.articleCount then some .clusterCount
  else if fh.checksumPos ≠ 0 ∧ fh.checksumPos < fh.mimeListPos then some .checksumPos
  else none

/-- `Fileheader::sanity_check` as seen by its caller. -/
def Fileheader.sanity_check (fh : Fileheader) : Except String Unit :=
  ThrowSite.outcome fh.sanity_check_site

/-- The ten setter calls of `Fileheader::read`: every member is overwritten with the value
decoded from `buffer`. -/
def Fileheader.assign (fh : Fileheader) (buffer : Buffer) : Fileheader :=
  let fh := { fh with uuid := buffer.data 8 24 }
  let fh := { fh with articleCount := buffer.as sizeof_size_type 24 }
  let fh := { fh with blobCount := buffer.as sizeof_size_type 28 }
  let fh := { fh with urlPtrPos := buffer.as sizeof_offset_type 32 }
  let fh := { fh with titleIdxPos := buffer.as sizeof_offset_type 40 }
  let fh := { fh with blobPtrPos := buffer.as sizeof_offset_type 48 }
  let fh := { fh with mimeListPos := buffer.as sizeof_offset_type 56 }
  let fh := { fh with mainPage := buffer.as sizeof_size_type 64 }
  let fh := { fh with layoutPage := buffer.as sizeof_size_type 68 }
  let fh := { fh with checksumPos := buffer.as sizeof_offset_type 72 }
  fh

/-- `Fileheader::read`, as the `throw` statement it reaches (`none`: it returns) together
with the members of `*this` when control leaves the method. -/
def Fileheader.read_site (fh : Fileheader) (buffer : Buffer) : Option ThrowSite × Fileheader :=
  let magicNumber := buffer.as sizeof_size_type 0
  if magicNumber ≠ Fileheader.zimMagic then (some .magic, fh)
  else
    let major_version := buffer.as sizeof_uint16_t 4
    if major_version ≠ Fileheader.zimMajorVersion then (some .majorVersion, fh)
    else
      let minor_version := buffer.as sizeof_uint16_t 6
      if minor_version < Fileheader.zimMinorVersion then (some .minorVersion, fh)
      else
        let fh := fh.assign buffer
        (fh.sanity_check_site, fh)

/-- `Fileheader::read` as seen by its caller: the outcome (normal return or the message of the
exception), and the members of `*this` after the call. -/
def Fileheader.read (fh : Fileheader) (buffer : Buffer) : Except String Unit × Fileheader :=
  (ThrowSite.outcome (fh.read_site buffer).1, (fh.read_site buffer).2)

/-! ## `FilePart` -/

/-- The data members of `FilePart` (`file_part.h`); `size_` is an `offset_type`. -/
structure FilePart where
  filename_ : String
  fd_ : Int
  size_ : Nat
  deriving DecidableEq, Repr

/-- `FilePart::size`. -/
def FilePart.size (p : FilePart) : Nat := p.size_

/-- `FilePart::fail`: `size_ == 0`. -/
def FilePart.fail (p : FilePart) : Bool := p.size_ == 0

/-- `FilePart::good`: `size_` converted to `bool`, true for every non-zero value. -/
def FilePart.good (p : FilePart) : Bool := p.size_ != 0


/-! ## Specification-side definitions: layout, slices, rules -/

/-- The thirteen fields of the header in the order of the layout table, each rendered in its
declared width. -/
def Fileheader.layout (fh : Fileheader) : List (List Byte) :=
  [toLittleEndian 4 Fileheader.zimMagic,
   toLittleEndian 2 Fileheader.zimMajorVersion,
   toLittleEndian 2 Fileheader.zimMinorVersion,
   fh.uuid,
   toLittleEndian 4 fh.articleCount,
   toLittleEndian 4 fh.blobCount,
   toLittleEndian 8 fh.urlPtrPos,
   toLittleEndian 8 fh.titleIdxPos,
   toLittleEndian 8 fh.blobPtrPos,
   toLittleEndian 8 fh.mimeListPos,
   toLittleEndian 4 fh.mainPage,
   toLittleEndian 4 fh.layoutPage,
   toLittleEndian 8 fh.checksumPos]

/-- Concatenation of the fields of a layout, first field first. -/
def concatFields : List (List Byte) → List Byte
  | [] => []
  | field :: rest => field ++ concatFields rest

/-- The thirteen slices of a buffer at the offsets of the layout table. -/
def headerSlices (buffer : Buffer) : List (List Byte) :=
  [buffer.data 0 4, buffer.data 4 6, buffer.data 6 8, buffer.data 8 24, buffer.data 24 28,
   buffer.data 28 32, buffer.data 32 40, buffer.data 40 48, buffer.data 48 56,
   buffer.data 56 64, buffer.data 64 68, buffer.data 68 72, buffer.data 72 80]

/-! ## The sanity rules as the specification states them -/

/-- The seven sanity rules of the specification, one per check of `sanity_check`. -/
inductive SanityRule where
  | articleCluster
  | mimeListPos
  | urlPtrPos
  | titleIdxPos
  | clusterPtrPos
  | clusterCount
  | checksumPos
  deriving DecidableEq, Repr

/-- The rule as the specification words it. -/
def SanityRule.holds : SanityRule → Fileheader → Prop
  | .articleCluster, fh => fh.articleCount = 0 ↔ fh.blobCount = 0
  | .mimeListPos, fh => fh.mimeListPos = 80 ∨ fh.mimeListPos = 72
  | .urlPtrPos, fh => fh.mimeListPos ≤ fh.urlPtrPos
  | .titleIdxPos, fh => fh.mimeListPos ≤ fh.titleIdxPos
  | .clusterPtrPos, fh => fh.mimeListPos ≤ fh.blobPtrPos
  | .clusterCount, fh => fh.blobCount ≤ fh.articleCount
  | .checksumPos, fh => fh.checksumPos = 0 ∨ fh.mimeListPos ≤ fh.checksumPos

instance (r : SanityRule) (fh : Fileheader) : Decidable (r.holds fh) := by
  cases r <;> unfold SanityRule.holds <;> infer_instance

/-- The `throw` statement of `sanity_check` guarded by the negation of the rule. -/
def SanityRule.site : SanityRule → ThrowSite
  | .articleCluster => .articleCluster
  | .mimeListPos => .mimeListPos
  | .urlPtrPos => .urlPtrPos
  | .titleIdxPos => .titleIdxPos
  | .clusterPtrPos => .clusterPtrPos
  | .clusterCount => .clusterCount
  | .checksumPos => .checksumPos

/-- The value of the byte at index `i` (0 past the end). -/
def byteAt (bytes : List Byte) (i : Nat) : Nat := (bytes.getD i 0).val

/-- Replaces the 16-bit major version of a buffer by its value minus one (modulo 2^16). -/
def decrementMajorVersion (buffer : Buffer) : Buffer :=
  writeAt buffer 4 (toLittleEndian 2 ((buffer.as 2 4 + 65535) % 65536))

/-- Replaces bytes 6..7 of a buffer, its 16-bit minor version, by the value `m`. -/
def replaceMinorVersion (buffer : Buffer) (m : Nat) : Buffer :=
  writeAt buffer 6 (toLittleEndian 2 m)

/-! ## Example inputs -/

/-- A header without content: every member is zero. -/
def zeroHeader : Fileheader :=
  { uuid := List.replicate 16 0, articleCount := 0, titleIdxPos := 0, urlPtrPos := 0,
    blobCount := 0, blobPtrPos := 0, mainPage := 0, layoutPage := 0, checksumPos := 0,
    mimeListPos := 0 }

/-- A valid header: three articles in two clusters, mimetype list right after the header. -/
def exampleHeader : Fileheader :=
  { uuid := [0, 1, 2, 3, 4, 5, 6, 7, 8, 9, 10, 11, 12, 13, 14, 255],
    articleCount := 3, titleIdxPos := 200, urlPtrPos := 180, blobCount := 2, blobPtrPos := 230,
    mainPage := 0, layoutPage := 4294967295, checksumPos := 1000, mimeListPos := 80 }

/-- The serialisation of `exampleHeader`, except that its minor version is 1. -/
def exampleBuffer : Buffer :=
  [0x5a, 0x49, 0x4d, 0x04, 5, 0, 1, 0,
   0, 1, 2, 3, 4, 5, 6, 7, 8, 9, 10, 11, 12, 13, 14, 255,
   3, 0, 0, 0, 2, 0, 0, 0,
   180, 0, 0, 0, 0, 0, 0, 0,
   200, 0, 0, 0, 0, 0, 0, 0,
   230, 0, 0, 0, 0, 0, 0, 0,
   80, 0, 0, 0, 0, 0, 0, 0,
   0, 0, 0, 0, 255, 255, 255, 255,
   0xe8, 0x03, 0, 0, 0, 0, 0, 0]

/-- A buffer of 80 bytes 0xff: wrong magic, wrong versions, and decoded fields that break the
sanity rules. -/
def garbageBuffer : Buffer := List.replicate 80 255

/-- A buffer with the right magic and major version 6; its other bytes are 0xff. -/
def futureBuffer : Buffer :=
  [0x5a, 0x49, 0x4d, 0x04, 6, 0] ++ List.replicate 74 255

/-- A header that breaks one rule only: there are articles but no cluster. -/
def noClusterHeader : Fileheader := { exampleHeader with blobCount := 0 }

/-- A header that breaks the first sanity rule: no article, one cluster. -/
def noArticleHeader : Fileheader := { exampleHeader with articleCount := 0, blobCount := 1 }

/-- For each sanity rule, a header that breaks that rule and no other. -/
def singleViolation : SanityRule → Fileheader
  | .articleCluster => { exampleHeader with blobCount := 0 }
  | .mimeListPos => { exampleHeader with mimeListPos := 100 }
  | .urlPtrPos => { exampleHeader with urlPtrPos := 79 }
  | .titleIdxPos => { exampleHeader with titleIdxPos := 0 }
  | .clusterPtrPos => { exampleHeader with blobPtrPos := 72, mimeListPos := 80 }
  | .clusterCount => { exampleHeader with blobCount := 4 }
  | .checksumPos => { exampleHeader with checksumPos := 1 }

/-- A valid header whose three pointers and checksum position all equal `mimeListPos`. -/
def equalPosHeader : Fileheader :=
  { exampleHeader with urlPtrPos := 80, titleIdxPos := 80, blobPtrPos := 80, checksumPos := 80 }

/-- A header of the 72-byte flavour whose three pointers equal `mimeListPos` = 72. -/
def floorHeader : Fileheader :=
  { exampleHeader with
    mimeListPos := 72, urlPtrPos := 72, titleIdxPos := 72, blobPtrPos := 72, checksumPos := 0 }

/-! ## `ZimCreator`: the minimum chunk size -/

/-- Modelled from the spec: the implementation of `ZimCreator` (`ZimCreatorImpl`) is not among
the sources, only the declarations of `zimcreator.h` are. The two treatments the specification
allows for a value ≤ 0: "rejected or clamped to a documented floor"; the floor is a parameter. -/
inductive MinChunkPolicy where
  | reject
  | clamp (floor : Nat)
  deriving DecidableEq, Repr

/-- Modelled from the spec: the implementation of `ZimCreator` is not among the sources. The
"configuration value" minimum chunk size, returned as `unsigned` by `getMinChunkSize`. -/
structure ZimCreator where
  minChunkSize : Nat
  deriving DecidableEq, Repr

/-- Modelled from the spec: the body of `unsigned getMinChunkSize() const` is not among the
sources; it returns the configuration value. -/
def ZimCreator.getMinChunkSize (creator : ZimCreator) : Nat := creator.minChunkSize

/-- Modelled from the spec: the body of `void setMinChunkSize(int s)` is not among the sources.
"Values ≤ 0 must be rejected or clamped to a documented floor": a rejected call raises a
`ConfigError` ("invalid chunk-size") and leaves the configuration as it was, a clamped call
stores the floor; a value above 0 is stored as it is. -/
def ZimCreator.setMinChunkSize (policy : MinChunkPolicy) (creator : ZimCreator) (s : Int) :
    Except String Unit × ZimCreator :=
  if s ≤ 0 then
    match policy with
    | .reject => (Except.error "ConfigError", creator)
    | .clamp floor => (Except.ok (), { creator with minChunkSize := floor })
  else (Except.ok (), { creator with minChunkSize := s.toNat })

/-- The floor of a policy is an `unsigned` above 0 that an `int` can hold. -/
def MinChunkPolicy.floorOk : MinChunkPolicy → Prop
  | .reject => True
  | .clamp floor => 0 < floor ∧ floor < 2147483648

instance (policy : MinChunkPolicy) : Decidable policy.floorOk := by
  cases policy <;> unfold MinChunkPolicy.floorOk <;> infer_instance

/-- Modelled from the spec: the body of the constructor `ZimCreator()` declared in
`zimcreator.h` is not among the sources. The minimum chunk size starts at the "default
implementation-defined positive value" of the writer configuration surface; the value is a
parameter. -/
def ZimCreator.construct (defaultSize : Nat) : ZimCreator := { minChunkSize := defaultSize }

/-- The creator after a sequence of `setMinChunkSize` calls, the rejected ones included. -/
def ZimCreator.afterCalls (policy : MinChunkPolicy) (creator : ZimCreator) (calls : List Int) :
    ZimCreator :=
  calls.foldl (fun c s => (c.setMinChunkSize policy s).2) creator

/-- A creator as a caller can hold it: constructed, then configured by any calls. -/
def ZimCreator.reached (policy : MinChunkPolicy) (defaultSize : Nat) (calls : List Int) :
    ZimCreator :=
  (ZimCreator.construct defaultSize).afterCalls policy calls

/-- The values of an `int`. -/
def isInt (s : Int) : Prop := -2147483648 ≤ s ∧ s < 2147483648

instance (s : Int) : Decidable (isInt s) := by
  unfold isInt; infer_instance

/-- Three calls: a negative value, zero, a positive value. -/
def exampleCalls : List Int := [-5, 0, 7]

/-! ## The order of the checks as the specification lists it -/

/-- The conditions of `read` in their stated order: magic, major version, minor version,
article/cluster emptiness, mimeListPos value, urlPtrPos, titleIdxPos, clusterPtrPos,
clusterCount ≤ articleCount, checksumPos. -/
def checkOrder : List ThrowSite :=
  [.magic, .majorVersion, .minorVersion, .articleCluster, .mimeListPos, .urlPtrPos,
   .titleIdxPos, .clusterPtrPos, .clusterCount, .checksumPos]

/-- Whether a buffer violates the condition of a check, on the values found at the offsets of
the layout table. -/
def ThrowSite.violatedBy : ThrowSite → Buffer → Bool
  | .magic, buffer => decide (buffer.as 4 0 ≠ 0x044d495a)
  | .majorVersion, buffer => decide (buffer.as 2 4 ≠ 5)
  | .minorVersion, buffer => decide (buffer.as 2 6 < 0)
  | .articleCluster, buffer => decide (¬ (buffer.as 4 24 = 0 ↔ buffer.as 4 28 = 0))
  | .mimeListPos, buffer => decide (¬ (buffer.as 8 56 = 80 ∨ buffer.as 8 56 = 72))
  | .urlPtrPos, buffer => decide (buffer.as 8 32 < buffer.as 8 56)
  | .titleIdxPos, buffer => decide (buffer.as 8 40 < buffer.as 8 56)
  | .clusterPtrPos, buffer => decide (buffer.as 8 48 < buffer.as 8 56)
  | .clusterCount, buffer => decide (buffer.as 4 24 < buffer.as 4 28)
  | .checksumPos, buffer => decide (buffer.as 8 72 ≠ 0 ∧ buffer.as 8 72 < buffer.as 8 56)

/-- The first condition, in the stated order, that a buffer violates. -/
def firstViolated (buffer : Buffer) : Option ThrowSite :=
  checkOrder.find? (fun site => site.violatedBy buffer)

/-- The serialisation of `noArticleHeader` with a wrong magic, a wrong major version and a
mimeListPos of 0: it violates six conditions at once. -/
def manyViolationsBuffer : Buffer :=
  [0, 0, 0, 0, 4, 0, 0, 0,
   0, 1, 2, 3, 4, 5, 6, 7, 8, 9, 10, 11, 12, 13, 14, 255,
   0, 0, 0, 0, 1, 0, 0, 0,
   180, 0, 0, 0, 0, 0, 0, 0,
   200, 0, 0, 0, 0, 0, 0, 0,
   230, 0, 0, 0, 0, 0, 0, 0,
   0, 0, 0, 0, 0, 0, 0, 0,
   0, 0, 0, 0, 255, 255, 255, 255,
   0xe8, 0x03, 0, 0, 0, 0, 0, 0]

/-- The condition a caller reads off an error message: the first one, in the stated order,
whose `throw` statement carries that message. -/
def conditionOfError (msg : String) : Option ThrowSite :=
  checkOrder.find? (fun site => site.what == msg)

/-- Nine 80-byte buffers, one per condition that can fail: a wrong magic, a wrong major
version, and the serialisation of a header breaking a single sanity rule, for each rule. -/
def failingBuffers : List Buffer :=
  [garbageBuffer, futureBuffer,
   operator_shl (singleViolation .articleCluster), operator_shl (singleViolation .mimeListPos),
   operator_shl (singleViolation .urlPtrPos), operator_shl (singleViolation .titleIdxPos),
   operator_shl (singleViolation .clusterPtrPos), operator_shl (singleViolation .clusterCount),
   operator_shl (singleViolation .checksumPos)]

/-! ## Little-endian helpers: basic facts -/

theorem toLittleEndian_length (width d : Nat) : (toLittleEndian width d).length = width := by
  induction width generalizing d with
  | zero => rfl
  | succ w ih => simp [toLittleEndian, ih]

theorem fromLittleEndian_lt (bs : List Byte) : fromLittleEndian bs < 256 ^ bs.length := by
  induction bs with
  | nil => simp [fromLittleEndian]
  | cons b bs ih =>
    have hb := b.isLt
    simp only [fromLittleEndian, List.length_cons, pow_succ]
    omega

theorem fromLittleEndian_toLittleEndian (width d : Nat) :
    fromLittleEndian (toLittleEndian width d) = d % 256 ^ width := by
  induction width generalizing d with
  | zero => simp [toLittleEndian, fromLittleEndian, Nat.mod_one]
  | succ w ih =>
    simp only [toLittleEndian, fromLittleEndian, ih, pow_succ]
    rw [Nat.mul_comm (256 ^ w) 256, Nat.mod_mul]

theorem toLittleEndian_fromLittleEndian (bs : List Byte) :
    toLittleEndian bs.length (fromLittleEndian bs) = bs := by
  induction bs with
  | nil => rfl
  | cons b bs ih =>
    have hb := b.isLt
    have h1 : (b.val + 256 * fromLittleEndian bs) % 256 = b.val := by omega
    have h2 : (b.val + 256 * fromLittleEndian bs) / 256 = fromLittleEndian bs := by omega
    simp only [List.length_cons, toLittleEndian, fromLittleEndian, h1, h2, ih]

/-- The byte stored at index `i` is the `i`-th base-256 digit of the value. -/
theorem toLittleEndian_getElem (width d i : Nat) (h : i < (toLittleEndian width d).length) :
    ((toLittleEndian width d)[i]).val = d / 256 ^ i % 256 := by
  induction width generalizing d i with
  | zero => simp [toLittleEndian] at h
  | succ w ih =>
    cases i with
    | zero => simp [toLittleEndian]
    | succ j =>
      simp only [toLittleEndian, List.getElem_cons_succ]
      rw [ih, pow_succ, Nat.mul_comm, Nat.div_div_eq_div_mul]

/-! ## Array stores and buffer slices -/

theorem writeAt_append (pre rest src : List Byte) (pos : Nat) (h : pre.length = pos) :
    writeAt (pre ++ rest) pos src = (pre ++ src) ++ rest.drop src.length := by
  subst h
  simp [writeAt, List.take_append_eq_append_take, List.drop_append_eq_append_drop]

theorem data_of_split (buffer pre mid post : List Byte) (start stop : Nat)
    (hb : buffer = pre ++ (mid ++ post)) (h1 : pre.length = start)
    (h2 : start + mid.length = stop) : Buffer.data buffer start stop = mid := by
  subst hb h1 h2
  simp [Buffer.data]

theorem writeAt_step (pre uninit src : List Byte) (n m : Nat) (h : pre.length = n)
    (hm : n + src.length = m) :
    writeAt (pre ++ uninit.drop n) n src = (pre ++ src) ++ uninit.drop m := by
  rw [writeAt_append pre _ src n h, List.drop_drop, ← hm, Nat.add_comm]

/-! ## The wire layout -/

theorem fill_eq (uninit : List Byte) (fh : Fileheader) (hu : uninit.length = 80)
    (hid : fh.uuid.length = 16) : fh.fill uninit = concatFields fh.layout := by
  have s1 := writeAt_step [] uninit (toLittleEndian 4 Fileheader.zimMagic) 0 4 rfl
    (by simp [toLittleEndian_length])
  simp only [List.nil_append, List.drop_zero] at s1
  simp only [Fileheader.fill, sizeof_size_type, sizeof_uint16_t, sizeof_offset_type]
  rw [s1, writeAt_step _ _ _ 4 6, writeAt_step _ _ _ 6 8, writeAt_step _ _ _ 8 24,
    writeAt_step _ _ _ 24 28, writeAt_step _ _ _ 28 32, writeAt_step _ _ _ 32 40,
    writeAt_step _ _ _ 40 48, writeAt_step _ _ _ 48 56, writeAt_step _ _ _ 56 64,
    writeAt_step _ _ _ 64 68, writeAt_step _ _ _ 68 72, writeAt_step _ _ _ 72 80]
  · rw [List.drop_of_length_le (Nat.le_of_eq hu)]
    simp [Fileheader.layout, concatFields]
  all_goals simp [toLittleEndian_length, hid]

theorem operator_shl_eq (fh : Fileheader) (hid : fh.uuid.length = 16) :
    operator_shl fh = concatFields fh.layout := by
  have hlen : (concatFields fh.layout).length = 80 := by
    simp [Fileheader.layout, concatFields, toLittleEndian_length, hid]
  unfold operator_shl
  rw [fill_eq _ fh (by simp [Fileheader.size]) hid, Fileheader.size, ← hlen, List.take_length]

theorem data_append_drop (buffer : List Byte) (start stop : Nat) (h : start ≤ stop) :
    Buffer.data buffer start stop ++ buffer.drop stop = buffer.drop start := by
  have e : buffer.drop stop = (buffer.drop start).drop (stop - start) := by
    rw [List.drop_drop]; congr 1; omega
  rw [Buffer.data, e, List.take_append_drop]

theorem data_length (buffer : List Byte) (start stop : Nat) (h : stop ≤ buffer.length) :
    (Buffer.data buffer start stop).length = stop - start := by
  simp only [Buffer.data, List.length_take, List.length_drop]
  omega

theorem concatFields_headerSlices (buffer : Buffer) (h : buffer.length = 80) :
    concatFields (headerSlices buffer) = buffer := by
  have e : buffer.drop 80 = [] := List.drop_of_length_le (Nat.le_of_eq h)
  have e13 : Buffer.data buffer 72 80 = buffer.drop 72 := by
    have := data_append_drop buffer 72 80 (by decide)
    rwa [e, List.append_nil] at this
  simp only [headerSlices, concatFields, List.append_nil]
  rw [e13, data_append_drop _ 68 72 (by decide), data_append_drop _ 64 68 (by decide),
    data_append_drop _ 56 64 (by decide), data_append_drop _ 48 56 (by decide),
    data_append_drop _ 40 48 (by decide), data_append_drop _ 32 40 (by decide),
    data_append_drop _ 28 32 (by decide), data_append_drop _ 24 28 (by decide),
    data_append_drop _ 8 24 (by decide), data_append_drop _ 6 8 (by decide),
    data_append_drop _ 4 6 (by decide), data_append_drop _ 0 4 (by decide), List.drop_zero]

theorem data_concat_cons (field : List Byte) (rest : List (List Byte)) (start stop k : Nat)
    (hk : field.length = k) :
    Buffer.data (concatFields (field :: rest)) (k + start) (k + stop)
      = Buffer.data (concatFields rest) start stop := by
  subst hk
  simp only [Buffer.data, concatFields, List.drop_append, Nat.add_sub_add_left]

theorem data_concat_head (field : List Byte) (rest : List (List Byte)) (k : Nat)
    (hk : field.length = k) :
    Buffer.data (concatFields (field :: rest)) 0 k = field := by
  subst hk
  simp [Buffer.data, concatFields]

theorem headerSlices_concatFields (f0 f1 f2 f3 f4 f5 f6 f7 f8 f9 f10 f11 f12 : List Byte)
    (h0 : f0.length = 4) (h1 : f1.length = 2) (h2 : f2.length = 2) (h3 : f3.length = 16)
    (h4 : f4.length = 4) (h5 : f5.length = 4) (h6 : f6.length = 8) (h7 : f7.length = 8)
    (h8 : f8.length = 8) (h9 : f9.length = 8) (h10 : f10.length = 4) (h11 : f11.length = 4)
    (h12 : f12.length = 8) :
    headerSlices (concatFields [f0, f1, f2, f3, f4, f5, f6, f7, f8, f9, f10, f11, f12])
      = [f0, f1, f2, f3, f4, f5, f6, f7, f8, f9, f10, f11, f12] := by
  have s0 := fun (rest : List (List Byte)) (a b : Nat) => data_concat_cons f0 rest a b 4 h0
  have s1 := fun (rest : List (List Byte)) (a b : Nat) => data_concat_cons f1 rest a b 2 h1
  have s2 := fun (rest : List (List Byte)) (a b : Nat) => data_concat_cons f2 rest a b 2 h2
  have s3 := fun (rest : List (List Byte)) (a b : Nat) => data_concat_cons f3 rest a b 16 h3
  have s4 := fun (rest : List (List Byte)) (a b : Nat) => data_concat_cons f4 rest a b 4 h4
  have s5 := fun (rest : List (List Byte)) (a b : Nat) => data_concat_cons f5 rest a b 4 h5
  have s6 := fun (rest : List (List Byte)) (a b : Nat) => data_concat_cons f6 rest a b 8 h6
  have s7 := fun (rest : List (List Byte)) (a b : Nat) => data_concat_cons f7 rest a b 8 h7
  have s8 := fun (rest : List (List Byte)) (a b : Nat) => data_concat_cons f8 rest a b 8 h8
  have s9 := fun (rest : List (List Byte)) (a b : Nat) => data_concat_cons f9 rest a b 8 h9
  have s10 := fun (rest : List (List Byte)) (a b : Nat) => data_concat_cons f10 rest a b 4 h10
  have s11 := fun (rest : List (List Byte)) (a b : Nat) => data_concat_cons f11 rest a b 4 h11
  unfold headerSlices
  congr 1
  · exact data_concat_head _ _ 4 h0
  congr 1
  · rw [s0 _ 0 2]; exact data_concat_head _ _ 2 h1
  congr 1
  · rw [s0 _ 2 4, s1 _ 0 2]; exact data_concat_head _ _ 2 h2
  congr 1
  · rw [s0 _ 4 20, s1 _ 2 18, s2 _ 0 16]; exact data_concat_head _ _ 16 h3
  congr 1
  · rw [s0 _ 20 24, s1 _ 18 22, s2 _ 16 20, s3 _ 0 4]; exact data_concat_head _ _ 4 h4
  congr 1
  · rw [s0 _ 24 28, s1 _ 22 26, s2 _ 20 24, s3 _ 4 8, s4 _ 0 4]
    exact data_concat_head _ _ 4 h5
  congr 1
  · rw [s0 _ 28 36, s1 _ 26 34, s2 _ 24 32, s3 _ 8 16, s4 _ 4 12, s5 _ 0 8]
    exact data_concat_head _ _ 8 h6
  congr 1
  · rw [s0 _ 36 44, s1 _ 34 42, s2 _ 32 40, s3 _ 16 24, s4 _ 12 20, s5 _ 8 16, s6 _ 0 8]
    exact data_concat_head _ _ 8 h7
  congr 1
  · rw [s0 _ 44 52, s1 _ 42 50, s2 _ 40 48, s3 _ 24 32, s4 _ 20 28, s5 _ 16 24, s6 _ 8 16,
      s7 _ 0 8]
    exact data_concat_head _ _ 8 h8
  congr 1
  · rw [s0 _ 52 60, s1 _ 50 58, s2 _ 48 56, s3 _ 32 40, s4 _ 28 36, s5 _ 24 32, s6 _ 16 24,
      s7 _ 8 16, s8 _ 0 8]
    exact data_concat_head _ _ 8 h9
  congr 1
  · rw [s0 _ 60 64, s1 _ 58 62, s2 _ 56 60, s3 _ 40 44, s4 _ 36 40, s5 _ 32 36, s6 _ 24 28,
      s7 _ 16 20, s8 _ 8 12, s9 _ 0 4]
    exact data_concat_head _ _ 4 h10
  congr 1
  · rw [s0 _ 64 68, s1 _ 62 66, s2 _ 60 64, s3 _ 44 48, s4 _ 40 44, s5 _ 36 40, s6 _ 28 32,
      s7 _ 20 24, s8 _ 12 16, s9 _ 4 8, s10 _ 0 4]
    exact data_concat_head _ _ 4 h11
  congr 1
  rw [s0 _ 68 76, s1 _ 66 74, s2 _ 64 72, s3 _ 48 56, s4 _ 44 52, s5 _ 40 48, s6 _ 32 40,
      s7 _ 24 32, s8 _ 16 24, s9 _ 8 16, s10 _ 4 12, s11 _ 0 8]
  exact data_concat_head _ _ 8 h12

/-! ## Reading back what `operator<<` wrote -/

theorem headerSlices_operator_shl (fh : Fileheader) (hid : fh.uuid.length = 16) :
    headerSlices (operator_shl fh) = fh.layout := by
  rw [operator_shl_eq fh hid]
  exact headerSlices_concatFields _ _ _ _ _ _ _ _ _ _ _ _ _
    (toLittleEndian_length _ _) (toLittleEndian_length _ _) (toLittleEndian_length _ _) hid
    (toLittleEndian_length _ _) (toLittleEndian_length _ _) (toLittleEndian_length _ _)
    (toLittleEndian_length _ _) (toLittleEndian_length _ _) (toLittleEndian_length _ _)
    (toLittleEndian_length _ _) (toLittleEndian_length _ _) (toLittleEndian_length _ _)

theorem operator_shl_length (fh : Fileheader) (hid : fh.uuid.length = 16) :
    (operator_shl fh).length = 80 := by
  rw [operator_shl_eq fh hid]
  simp [Fileheader.layout, concatFields, toLittleEndian_length, hid]

theorem decode_encode_of_lt (width d : Nat) (h : d < 256 ^ width) :
    fromLittleEndian (toLittleEndian width d) = d := by
  rw [fromLittleEndian_toLittleEndian, Nat.mod_eq_of_lt h]

/-- What `read` decodes from the bytes written by `operator<<`. -/
theorem decode_operator_shl (fh : Fileheader) (hwf : fh.wf) :
    Buffer.as (operator_shl fh) 4 0 = Fileheader.zimMagic ∧
    Buffer.as (operator_shl fh) 2 4 = Fileheader.zimMajorVersion ∧
    Buffer.as (operator_shl fh) 2 6 = Fileheader.zimMinorVersion ∧
    Buffer.data (operator_shl fh) 8 24 = fh.uuid ∧
    Buffer.as (operator_shl fh) 4 24 = fh.articleCount ∧
    Buffer.as (operator_shl fh) 4 28 = fh.blobCount ∧
    Buffer.as (operator_shl fh) 8 32 = fh.urlPtrPos ∧
    Buffer.as (operator_shl fh) 8 40 = fh.titleIdxPos ∧
    Buffer.as (operator_shl fh) 8 48 = fh.blobPtrPos ∧
    Buffer.as (operator_shl fh) 8 56 = fh.mimeListPos ∧
    Buffer.as (operator_shl fh) 4 64 = fh.mainPage ∧
    Buffer.as (operator_shl fh) 4 68 = fh.layoutPage ∧
    Buffer.as (operator_shl fh) 8 72 = fh.checksumPos := by
  obtain ⟨hid, h1, h2, h3, h4, h5, h6, h7, h8, h9⟩ := hwf
  have hsl := headerSlices_operator_shl fh hid
  simp only [headerSlices, Fileheader.layout, List.cons.injEq, and_true] at hsl
  obtain ⟨s0, s1, s2, s3, s4, s5, s6, s7, s8, s9, s10, s11, s12⟩ := hsl
  simp only [Buffer.as, Nat.zero_add, Nat.reduceAdd, s0, s1, s2, s3, s4, s5, s6, s7, s8, s9, s10,
    s11, s12]
  refine ⟨?_, ?_, ?_, trivial, ?_, ?_, ?_, ?_, ?_, ?_, ?_, ?_, ?_⟩ <;>
    apply decode_encode_of_lt <;>
    first
      | (simp only [Fileheader.zimMagic, Fileheader.zimMajorVersion, Fileheader.zimMinorVersion];
         norm_num)
      | (norm_num; assumption)

theorem assign_eq (self : Fileheader) (buffer : Buffer) :
    self.assign buffer =
      { uuid := buffer.data 8 24, articleCount := buffer.as 4 24, titleIdxPos := buffer.as 8 40,
        urlPtrPos := buffer.as 8 32, blobCount := buffer.as 4 28, blobPtrPos := buffer.as 8 48,
        mainPage := buffer.as 4 64, layoutPage := buffer.as 4 68, checksumPos := buffer.as 8 72,
        mimeListPos := buffer.as 8 56 } := rfl

theorem assign_operator_shl (self fh : Fileheader) (hwf : fh.wf) :
    self.assign (operator_shl fh) = fh := by
  obtain ⟨-, -, -, d3, d4, d5, d6, d7, d8, d9, d10, d11, d12⟩ := decode_operator_shl fh hwf
  rw [assign_eq, d3, d4, d5, d6, d7, d8, d9, d10, d11, d12]

/-- Reading the serialisation of a header reaches `sanity_check` on that very header. -/
theorem read_site_operator_shl (self fh : Fileheader) (hwf : fh.wf) :
    self.read_site (operator_shl fh) = (fh.sanity_check_site, fh) := by
  obtain ⟨d0, d1, d2, -⟩ := decode_operator_shl fh hwf
  simp only [Fileheader.read_site, sizeof_size_type, sizeof_uint16_t, d0, d1, d2,
    ne_eq, not_true_eq_false, if_false, lt_irrefl, assign_operator_shl self fh hwf]

theorem outcome_eq_ok_iff (t : Option ThrowSite) :
    ThrowSite.outcome t = Except.ok () ↔ t = none := by
  cases t <;> simp [ThrowSite.outcome]

theorem outcome_eq_error_iff (t : Option ThrowSite) (msg : String) :
    ThrowSite.outcome t = Except.error msg ↔ ∃ site, t = some site ∧ site.what = msg := by
  cases t <;> simp [ThrowSite.outcome]

/-- The chain of checks of `sanity_check`, each condition read as the negation of a rule. -/
theorem sanity_check_site_eq (fh : Fileheader) :
    fh.sanity_check_site =
      if ¬ SanityRule.articleCluster.holds fh then some .articleCluster
      else if ¬ SanityRule.mimeListPos.holds fh then some .mimeListPos
      else if ¬ SanityRule.urlPtrPos.holds fh then some .urlPtrPos
      else if ¬ SanityRule.titleIdxPos.holds fh then some .titleIdxPos
      else if ¬ SanityRule.clusterPtrPos.holds fh then some .clusterPtrPos
      else if ¬ SanityRule.clusterCount.holds fh then some .clusterCount
      else if ¬ SanityRule.checksumPos.holds fh then some .checksumPos
      else none := by
  have e1 : (((fh.articleCount != 0) != (fh.blobCount != 0)) = true)
      ↔ ¬ (fh.articleCount = 0 ↔ fh.blobCount = 0) := by
    by_cases ha : fh.articleCount = 0 <;> by_cases hb : fh.blobCount = 0
    · simp [ha, hb]
    · simp [ha, hb]
    · simp [ha, hb]
    · have h1 : (fh.articleCount != 0) = true := by simpa using ha
      have h2 : (fh.blobCount != 0) = true := by simpa using hb
      simp [h1, h2, ha, hb]
  have e2 : (fh.mimeListPos ≠ Fileheader.size ∧ fh.mimeListPos ≠ 72)
      ↔ ¬ (fh.mimeListPos = 80 ∨ fh.mimeListPos = 72) := by
    simp [Fileheader.size, not_or]
  have e3 : (fh.checksumPos ≠ 0 ∧ fh.checksumPos < fh.mimeListPos)
      ↔ ¬ (fh.checksumPos = 0 ∨ fh.mimeListPos ≤ fh.checksumPos) := by
    simp [not_or]
  simp only [Fileheader.sanity_check_site, SanityRule.holds, e1, e2, e3, Nat.not_le, gt_iff_lt]

theorem sanity_check_site_eq_none_iff (fh : Fileheader) :
    fh.sanity_check_site = none ↔ ∀ r : SanityRule, r.holds fh := by
  rw [sanity_check_site_eq]
  constructor
  · intro h r
    by_cases h1 : SanityRule.articleCluster.holds fh <;>
    by_cases h2 : SanityRule.mimeListPos.holds fh <;>
    by_cases h3 : SanityRule.urlPtrPos.holds fh <;>
    by_cases h4 : SanityRule.titleIdxPos.holds fh <;>
    by_cases h5 : SanityRule.clusterPtrPos.holds fh <;>
    by_cases h6 : SanityRule.clusterCount.holds fh <;>
    by_cases h7 : SanityRule.checksumPos.holds fh <;>
    simp [h1, h2, h3, h4, h5, h6, h7] at h
    cases r <;> assumption
  · intro h
    simp [h .articleCluster, h .mimeListPos, h .urlPtrPos, h .titleIdxPos, h .clusterPtrPos,
      h .clusterCount, h .checksumPos]

/-- The chain of checks of `read` before any member is assigned. -/
theorem read_site_eq (self : Fileheader) (buffer : Buffer) :
    self.read_site buffer =
      if buffer.as 4 0 ≠ 0x044d495a then (some .magic, self)
      else if buffer.as 2 4 ≠ 5 then (some .majorVersion, self)
      else if buffer.as 2 6 < 0 then (some .minorVersion, self)
      else ((self.assign buffer).sanity_check_site, self.assign buffer) := rfl

theorem byteAt_data (buffer : List Byte) (start stop i : Nat) (h : i < stop - start) :
    byteAt (Buffer.data buffer start stop) i = byteAt buffer (start + i) := by
  simp [byteAt, Buffer.data, List.getD_eq_getElem?_getD, List.getElem?_take, h]

theorem byteAt_toLittleEndian (width d i : Nat) (h : i < width) :
    byteAt (toLittleEndian width d) i = d / 256 ^ i % 256 := by
  have hi : i < (toLittleEndian width d).length := by rw [toLittleEndian_length]; exact h
  rw [byteAt, List.getD_eq_getElem _ _ hi, toLittleEndian_getElem]

theorem byteAt_of_data_eq (buffer : List Byte) (start stop width d i : Nat)
    (hd : Buffer.data buffer start stop = toLittleEndian width d) (hw : start + width = stop)
    (h : i < width) : byteAt buffer (start + i) = d / 256 ^ i % 256 := by
  rw [← byteAt_data buffer start stop i (by omega), hd, byteAt_toLittleEndian width d i h]

theorem all_rules_iff (fh : Fileheader) :
    (∀ r : SanityRule, r.holds fh) ↔
      ((fh.articleCount = 0 ↔ fh.blobCount = 0) ∧
       (fh.mimeListPos = 80 ∨ fh.mimeListPos = 72) ∧
       fh.mimeListPos ≤ fh.urlPtrPos ∧ fh.mimeListPos ≤ fh.titleIdxPos ∧
       fh.mimeListPos ≤ fh.blobPtrPos ∧
       fh.blobCount ≤ fh.articleCount ∧
       (fh.checksumPos = 0 ∨ fh.mimeListPos ≤ fh.checksumPos)) := by
  constructor
  · intro h
    exact ⟨h .articleCluster, h .mimeListPos, h .urlPtrPos, h .titleIdxPos, h .clusterPtrPos,
      h .clusterCount, h .checksumPos⟩
  · rintro ⟨h1, h2, h3, h4, h5, h6, h7⟩ r
    cases r <;> assumption

theorem as_writeAt_self (buffer : Buffer) (pos width d : Nat) (hlen : pos + width ≤ buffer.length) :
    Buffer.as (writeAt buffer pos (toLittleEndian width d)) width pos = d % 256 ^ width := by
  have e : Buffer.data (writeAt buffer pos (toLittleEndian width d)) pos (pos + width)
      = toLittleEndian width d := by
    apply data_of_split _ (buffer.take pos) _ (buffer.drop (pos + width))
    · simp [writeAt, toLittleEndian_length]
    · simp; omega
    · simp [toLittleEndian_length]
  rw [Buffer.as, e, fromLittleEndian_toLittleEndian]

/-- A store of `src` at `pos` leaves every slice that ends at or before `pos` unchanged. -/
theorem data_writeAt_before (buffer src : List Byte) (pos start stop : Nat)
    (h : stop ≤ pos) (hlen : pos ≤ buffer.length) :
    Buffer.data (writeAt buffer pos src) start stop = Buffer.data buffer start stop := by
  have e : Buffer.data buffer start stop = Buffer.data (buffer.take pos) start stop := by
    simp only [Buffer.data, List.drop_take, List.take_take]
    congr 1; omega
  rw [e]
  simp only [Buffer.data, writeAt, List.append_assoc]
  rw [List.drop_append_eq_append_drop, List.take_append_eq_append_take]
  have h1 : stop - start - ((buffer.take pos).drop start).length = 0 := by
    simp only [List.length_drop, List.length_take]; omega
  rw [h1]; simp

/-- A store of `src` at `pos` leaves every slice that starts at or after its end unchanged. -/
theorem data_writeAt_after (buffer src : List Byte) (pos start stop : Nat)
    (h : pos + src.length ≤ start) (hlen : pos ≤ buffer.length) :
    Buffer.data (writeAt buffer pos src) start stop = Buffer.data buffer start stop := by
  have hl : (buffer.take pos ++ src).length = pos + src.length := by
    simp [List.length_take, Nat.min_eq_left hlen]
  obtain ⟨k, rfl⟩ : ∃ k, start = (buffer.take pos ++ src).length + k :=
    ⟨start - (pos + src.length), by omega⟩
  simp only [Buffer.data, writeAt]
  rw [List.drop_append, List.drop_drop, hl]

theorem writeAt_length (buffer src : List Byte) (pos : Nat)
    (h : pos + src.length ≤ buffer.length) : (writeAt buffer pos src).length = buffer.length := by
  simp only [writeAt, List.length_append, List.length_take, List.length_drop]
  omega

theorem as_writeAt_before (buffer src : List Byte) (pos width offset : Nat)
    (h : offset + width ≤ pos) (hlen : pos ≤ buffer.length) :
    Buffer.as (writeAt buffer pos src) width offset = Buffer.as buffer width offset := by
  rw [Buffer.as, Buffer.as, data_writeAt_before buffer src pos _ _ h hlen]

theorem as_writeAt_after (buffer src : List Byte) (pos width offset : Nat)
    (h : pos + src.length ≤ offset) (hlen : pos ≤ buffer.length) :
    Buffer.as (writeAt buffer pos src) width offset = Buffer.as buffer width offset := by
  rw [Buffer.as, Buffer.as, data_writeAt_after buffer src pos _ _ h hlen]

/-- Storing a minor version changes neither what `read` decodes before it nor after it. -/
theorem replaceMinorVersion_decode (self : Fileheader) (buffer : Buffer) (m : Nat)
    (hlen : buffer.length = 80) :
    Buffer.as (replaceMinorVersion buffer m) 4 0 = buffer.as 4 0 ∧
    Buffer.as (replaceMinorVersion buffer m) 2 4 = buffer.as 2 4 ∧
    Buffer.as (replaceMinorVersion buffer m) 2 6 = m % 65536 ∧
    self.assign (replaceMinorVersion buffer m) = self.assign buffer := by
  have h6 : 6 ≤ buffer.length := by omega
  have hs : 6 + (toLittleEndian 2 m).length ≤ 8 := by simp [toLittleEndian_length]
  refine ⟨as_writeAt_before _ _ 6 4 0 (by decide) h6, as_writeAt_before _ _ 6 2 4 (by decide) h6,
    ?_, ?_⟩
  · rw [replaceMinorVersion, as_writeAt_self buffer 6 2 m (by omega)]
    norm_num
  · rw [assign_eq, assign_eq]
    unfold replaceMinorVersion
    rw [data_writeAt_after _ _ 6 8 24 hs h6,
      as_writeAt_after _ _ 6 4 24 (by omega) h6, as_writeAt_after _ _ 6 8 40 (by omega) h6,
      as_writeAt_after _ _ 6 8 32 (by omega) h6, as_writeAt_after _ _ 6 4 28 (by omega) h6,
      as_writeAt_after _ _ 6 8 48 (by omega) h6, as_writeAt_after _ _ 6 4 64 (by omega) h6,
      as_writeAt_after _ _ 6 4 68 (by omega) h6, as_writeAt_after _ _ 6 8 72 (by omega) h6,
      as_writeAt_after _ _ 6 8 56 (by omega) h6]

theorem sanity_messages_injective (r1 r2 : SanityRule) (h : r1.site.what = r2.site.what) :
    r1 = r2 := by
  cases r1 <;> cases r2 <;> first | rfl | (exact absurd h (by decide))

/-- A header that violates exactly one rule reaches the `throw` statement of that rule. -/
theorem sanity_check_site_of_single_violation (fh : Fileheader) (r : SanityRule)
    (hviol : ¬ r.holds fh) (hothers : ∀ r2 : SanityRule, r2 ≠ r → r2.holds fh) :
    fh.sanity_check_site = some r.site := by
  have o1 := hothers .articleCluster
  have o2 := hothers .mimeListPos
  have o3 := hothers .urlPtrPos
  have o4 := hothers .titleIdxPos
  have o5 := hothers .clusterPtrPos
  have o6 := hothers .clusterCount
  have o7 := hothers .checksumPos
  rw [sanity_check_site_eq]
  cases r <;>
    simp only [ne_eq, reduceCtorEq, not_false_eq_true, not_true_eq_false, true_implies,
      false_implies] at o1 o2 o3 o4 o5 o6 o7 <;>
    simp [hviol, o1, o2, o3, o4, o5, o6, o7, SanityRule.site]

/-- An accepted buffer carries the magic number and the supported major version. -/
theorem read_ok_versions (self : Fileheader) (buffer : Buffer)
    (hacc : (self.read buffer).1 = Except.ok ()) :
    buffer.as 4 0 = 0x044d495a ∧ buffer.as 2 4 = 5 := by
  unfold Fileheader.read at hacc
  rw [outcome_eq_ok_iff, read_site_eq] at hacc
  by_cases h0 : buffer.as 4 0 = 0x044d495a
  · by_cases h1 : buffer.as 2 4 = 5
    · exact ⟨h0, h1⟩
    · simp [h0, h1] at hacc
  · simp [h0] at hacc

/-- Every sanity rule can be the only one a header breaks. -/
theorem singleViolation_spec (r : SanityRule) :
    (singleViolation r).wf ∧ ¬ r.holds (singleViolation r) ∧
    (∀ r2 : SanityRule, r2 ≠ r → r2.holds (singleViolation r)) := by
  cases r <;> refine ⟨by decide, by decide, ?_⟩ <;> intro r2 <;> cases r2 <;> decide

/-- The three ways control leaves `read`: at the magic check, at the major-version check, or
after the ten assignments with the result of `sanity_check`. -/
theorem read_site_cases (self : Fileheader) (buffer : Buffer) :
    (buffer.as 4 0 ≠ 0x044d495a ∧ self.read_site buffer = (some .magic, self)) ∨
    (buffer.as 4 0 = 0x044d495a ∧ buffer.as 2 4 ≠ 5 ∧
      self.read_site buffer = (some .majorVersion, self)) ∨
    (buffer.as 4 0 = 0x044d495a ∧ buffer.as 2 4 = 5 ∧
      self.read_site buffer = ((self.assign buffer).sanity_check_site, self.assign buffer)) := by
  rw [read_site_eq]
  by_cases h0 : buffer.as 4 0 = 0x044d495a
  · by_cases h1 : buffer.as 2 4 = 5
    · right; right
      simp [h0, h1]
    · right; left
      simp [h0, h1]
  · left
    simp [h0]

/-- The `throw` statements of `sanity_check` are not those of `read`. -/
theorem sanity_check_site_ne_early (fh : Fileheader) :
    fh.sanity_check_site ≠ some .magic ∧ fh.sanity_check_site ≠ some .majorVersion ∧
    fh.sanity_check_site ≠ some .minorVersion := by
  unfold Fileheader.sanity_check_site
  refine ⟨?_, ?_, ?_⟩ <;> (repeat' split) <;> simp

/-- A header accepted by `sanity_check` satisfies the seven rules. -/
theorem rules_of_sanity_check_ok (fh : Fileheader) (hs : fh.sanity_check = Except.ok ()) :
    (fh.articleCount = 0 ↔ fh.blobCount = 0) ∧
    (fh.mimeListPos = 80 ∨ fh.mimeListPos = 72) ∧
    fh.mimeListPos ≤ fh.urlPtrPos ∧ fh.mimeListPos ≤ fh.titleIdxPos ∧
    fh.mimeListPos ≤ fh.blobPtrPos ∧
    fh.blobCount ≤ fh.articleCount ∧
    (fh.checksumPos = 0 ∨ fh.mimeListPos ≤ fh.checksumPos) :=
  (all_rules_iff fh).1 ((sanity_check_site_eq_none_iff fh).1 ((outcome_eq_ok_iff _).1 hs))

/-- Only the two version checks carry the message "Invalid version". -/
theorem site_of_invalid_version (site : ThrowSite) (h : site.what = "Invalid version") :
    site = .majorVersion ∨ site = .minorVersion := by
  cases site <;> first | exact Or.inl rfl | exact Or.inr rfl | exact absurd h (by decide)

/-- Encoding the value decoded from a slice gives the slice back. -/
theorem encode_as (buffer : Buffer) (width offset : Nat) (h : offset + width ≤ buffer.length) :
    toLittleEndian width (buffer.as width offset) = buffer.data offset (offset + width) := by
  have hl : (Buffer.data buffer offset (offset + width)).length = width := by
    rw [data_length buffer offset (offset + width) h]; omega
  have := toLittleEndian_fromLittleEndian (Buffer.data buffer offset (offset + width))
  rw [hl] at this
  exact this

theorem take_eq_data_append (buffer : List Byte) (k n : Nat) (h : k ≤ n) :
    buffer.take n = Buffer.data buffer 0 k ++ Buffer.data buffer k n := by
  have e := List.take_append_drop k (buffer.take n)
  rw [List.take_take, List.drop_take, Nat.min_eq_left h] at e
  simp only [Buffer.data, List.drop_zero, Nat.sub_zero]
  exact e.symm

/-- The serialisation of the header decoded from an 80-byte buffer with the right magic and
major version is the buffer with bytes 6..7 set to zero. -/
theorem operator_shl_assign (self : Fileheader) (buffer : Buffer) (hlen : buffer.length = 80)
    (h0 : buffer.as 4 0 = 0x044d495a) (h1 : buffer.as 2 4 = 5) :
    operator_shl (self.assign buffer) = buffer.take 6 ++ [0, 0] ++ buffer.drop 8 := by
  have hid : (self.assign buffer).uuid.length = 16 := by
    rw [assign_eq]; exact data_length buffer 8 24 (by omega)
  have e0 : toLittleEndian 4 Fileheader.zimMagic = Buffer.data buffer 0 4 := by
    rw [Fileheader.zimMagic, ← h0]; exact encode_as buffer 4 0 (by omega)
  have e1 : toLittleEndian 2 Fileheader.zimMajorVersion = Buffer.data buffer 4 6 := by
    rw [Fileheader.zimMajorVersion, ← h1]; exact encode_as buffer 2 4 (by omega)
  have e2 : toLittleEndian 2 Fileheader.zimMinorVersion = [0, 0] := rfl
  have e13 : Buffer.data buffer 72 80 = buffer.drop 72 := by
    have := data_append_drop buffer 72 80 (by decide)
    rwa [List.drop_of_length_le (Nat.le_of_eq hlen), List.append_nil] at this
  rw [operator_shl_eq _ hid, assign_eq]
  simp only [Fileheader.layout, concatFields, List.append_nil, e0, e1, e2]
  rw [encode_as buffer 4 24 (by omega), encode_as buffer 4 28 (by omega),
    encode_as buffer 8 32 (by omega), encode_as buffer 8 40 (by omega),
    encode_as buffer 8 48 (by omega), encode_as buffer 8 56 (by omega),
    encode_as buffer 4 64 (by omega), encode_as buffer 4 68 (by omega),
    encode_as buffer 8 72 (by omega)]
  simp only [Nat.reduceAdd]
  rw [e13, data_append_drop _ 68 72 (by decide), data_append_drop _ 64 68 (by decide),
    data_append_drop _ 56 64 (by decide), data_append_drop _ 48 56 (by decide),
    data_append_drop _ 40 48 (by decide), data_append_drop _ 32 40 (by decide),
    data_append_drop _ 28 32 (by decide), data_append_drop _ 24 28 (by decide),
    data_append_drop _ 8 24 (by decide), take_eq_data_append buffer 4 6 (by decide)]
  simp only [List.append_assoc]

/-- Bytes 6..7 of an 80-byte buffer are zero exactly when zeroing them changes nothing. -/
theorem zero_minor_iff (buffer : Buffer) (hlen : buffer.length = 80) :
    buffer.take 6 ++ [0, 0] ++ buffer.drop 8 = buffer ↔ buffer.as 2 6 = 0 := by
  constructor
  · intro h
    have hd : Buffer.data buffer 6 8 = [0, 0] := by
      apply data_of_split buffer (buffer.take 6) [0, 0] (buffer.drop 8) 6 8
      · rw [← List.append_assoc]; exact h.symm
      · simp only [List.length_take]; omega
      · rfl
    rw [Buffer.as, hd]; rfl
  · intro h
    have hd : Buffer.data buffer 6 8 = [0, 0] := by
      rw [← encode_as buffer 2 6 (by omega), h]; rfl
    rw [← hd, List.append_assoc, data_append_drop buffer 6 8 (by decide),
      List.take_append_drop]

/-- The `throw` statement `read` reaches is the first violated condition in the stated order. -/
theorem read_site_eq_firstViolated (self : Fileheader) (buffer : Buffer) :
    (self.read_site buffer).1 = firstViolated buffer := by
  rw [read_site_eq]
  simp only [firstViolated, checkOrder, List.find?, ThrowSite.violatedBy]
  by_cases h0 : buffer.as 4 0 = 0x044d495a
  swap
  · simp [h0]
  by_cases h1 : buffer.as 2 4 = 5
  swap
  · simp [h0, h1]
  simp only [h0, h1, ne_eq, not_true_eq_false, if_false, decide_False, Nat.not_lt_zero]
  rw [sanity_check_site_eq, assign_eq]
  simp only [SanityRule.holds]
  by_cases h3 : (buffer.as 4 24 = 0 ↔ buffer.as 4 28 = 0)
  swap
  · simp [h3]
  by_cases h4 : (buffer.as 8 56 = 80 ∨ buffer.as 8 56 = 72)
  swap
  · simp [h3, h4]
  by_cases h5 : buffer.as 8 32 < buffer.as 8 56
  · have n5 : ¬ buffer.as 8 56 ≤ buffer.as 8 32 := by omega
    simp [h3, h4, h5, n5]
  have p5 : buffer.as 8 56 ≤ buffer.as 8 32 := by omega
  by_cases h6 : buffer.as 8 40 < buffer.as 8 56
  · have n6 : ¬ buffer.as 8 56 ≤ buffer.as 8 40 := by omega
    simp [h3, h4, h5, p5, h6, n6]
  have p6 : buffer.as 8 56 ≤ buffer.as 8 40 := by omega
  by_cases h7 : buffer.as 8 48 < buffer.as 8 56
  · have n7 : ¬ buffer.as 8 56 ≤ buffer.as 8 48 := by omega
    simp [h3, h4, h5, p5, h6, p6, h7, n7]
  have p7 : buffer.as 8 56 ≤ buffer.as 8 48 := by omega
  by_cases h8 : buffer.as 4 24 < buffer.as 4 28
  · have n8 : ¬ buffer.as 4 28 ≤ buffer.as 4 24 := by omega
    simp [h3, h4, h5, p5, h6, p6, h7, p7, h8, n8]
  have p8 : buffer.as 4 28 ≤ buffer.as 4 24 := by omega
  by_cases h9a : buffer.as 8 72 = 0
  · simp [h3, h4, h5, p5, h6, p6, h7, p7, h8, p8, h9a]
  by_cases h9 : buffer.as 8 72 < buffer.as 8 56
  · have n9 : ¬ buffer.as 8 56 ≤ buffer.as 8 72 := by omega
    simp [h3, h4, h5, p5, h6, p6, h7, p7, h8, p8, h9a, h9, n9]
  · have p9 : buffer.as 8 56 ≤ buffer.as 8 72 := by omega
    simp [h3, h4, h5, p5, h6, p6, h7, p7, h8, p8, h9a, h9, p9]

/-- The major-version check and the minor-version check of `read` are two `throw` statements
with one message. -/
theorem version_errors_collide :
    ThrowSite.majorVersion ≠ ThrowSite.minorVersion ∧
    ThrowSite.majorVersion.what = "Invalid version" ∧
    ThrowSite.minorVersion.what = "Invalid version" :=
  ⟨by decide, rfl, rfl⟩

/-- Two `throw` statements of `read` and `sanity_check` carry the same message exactly when
they are the same statement or they are the two version checks. -/
theorem errors_distinct_up_to_version (s1 s2 : ThrowSite) :
    s1.what = s2.what ↔
      (s1 = s2 ∨ (s1 = .majorVersion ∧ s2 = .minorVersion) ∨
        (s1 = .minorVersion ∧ s2 = .majorVersion)) := by
  cases s1 <;> cases s2 <;> decide

/-- No buffer makes `read` leave through the minor-version `throw` statement. -/
theorem read_site_ne_minorVersion (self : Fileheader) (buffer : Buffer) :
    (self.read_site buffer).1 ≠ some .minorVersion := by
  rcases read_site_cases self buffer with ⟨-, hr⟩ | ⟨-, -, hr⟩ | ⟨-, -, hr⟩
  · rw [hr]; simp
  · rw [hr]; simp
  · rw [hr]; exact (sanity_check_site_ne_early _).2.2

/-- Outcomes of `throw` statements other than the minor-version one determine the statement. -/
theorem outcome_injective (t1 t2 : Option ThrowSite) (h1 : t1 ≠ some .minorVersion)
    (h2 : t2 ≠ some .minorVersion) (h : ThrowSite.outcome t1 = ThrowSite.outcome t2) :
    t1 = t2 := by
  cases t1 with
  | none =>
    cases t2 with
    | none => rfl
    | some s2 => simp [ThrowSite.outcome] at h
  | some s1 =>
    cases t2 with
    | none => simp [ThrowSite.outcome] at h
    | some s2 =>
      have hw : s1.what = s2.what := by simpa [ThrowSite.outcome] using h
      rcases (errors_distinct_up_to_version s1 s2).1 hw with rfl | ⟨-, rfl⟩ | ⟨rfl, -⟩
      · rfl
      · exact absurd rfl h2
      · exact absurd rfl h1

/-- The message of every `throw` statement but the minor-version one names the statement. -/
theorem conditionOfError_what (site : ThrowSite) (h : site ≠ .minorVersion) :
    conditionOfError site.what = some site := by
  cases site <;> first | rfl | exact absurd rfl h

/-- Each of the nine conditions other than the minor-version one is the first violated
condition of some 80-byte buffer. -/
theorem firstViolated_failingBuffers :
    failingBuffers.map List.length = List.replicate 9 80 ∧
    failingBuffers.map firstViolated =
      [some .magic, some .majorVersion, some .articleCluster, some .mimeListPos,
       some .urlPtrPos, some .titleIdxPos, some .clusterPtrPos, some .clusterCount,
       some .checksumPos] := by
  constructor <;> decide

/-- One call of `setMinChunkSize` on a creator whose value is above 0 and below 2^31: a value
≤ 0 is rejected or clamped, a value above 0 is stored, and the value stays in that range. -/
theorem setMinChunkSize_spec (policy : MinChunkPolicy) (creator : ZimCreator) (s : Int)
    (hint : -2147483648 ≤ s ∧ s < 2147483648) (hfloor : policy.floorOk)
    (hcur : 0 < creator.getMinChunkSize ∧ creator.getMinChunkSize < 2147483648) :
    (s ≤ 0 →
      ((creator.setMinChunkSize policy s).1 = Except.error "ConfigError" ∧
        (creator.setMinChunkSize policy s).2 = creator) ∨
      (∃ floor, policy = .clamp floor ∧ 0 < floor ∧
        (creator.setMinChunkSize policy s).1 = Except.ok () ∧
        (creator.setMinChunkSize policy s).2.getMinChunkSize = floor)) ∧
    0 < (creator.setMinChunkSize policy s).2.getMinChunkSize ∧
    (∀ t : Int, -2147483648 ≤ t → t < 0 →
      ((creator.setMinChunkSize policy s).2.getMinChunkSize : Int) ≠ t % 4294967296) ∧
    (0 < s →
      (creator.setMinChunkSize policy s).1 = Except.ok () ∧
      ((creator.setMinChunkSize policy s).2.getMinChunkSize : Int) = s) := by
  obtain ⟨hlo, hhi⟩ := hint
  obtain ⟨hc0, hc1⟩ := hcur
  have hbound : 0 < (creator.setMinChunkSize policy s).2.getMinChunkSize ∧
      (creator.setMinChunkSize policy s).2.getMinChunkSize < 2147483648 := by
    unfold ZimCreator.setMinChunkSize ZimCreator.getMinChunkSize at *
    by_cases hs : s ≤ 0
    · cases policy with
      | reject => simp only [hs, if_true]; exact ⟨hc0, hc1⟩
      | clamp floor => simp only [hs, if_true]; exact hfloor
    · simp only [hs, if_false]
      omega
  refine ⟨?_, hbound.1, ?_, ?_⟩
  · intro hs
    unfold ZimCreator.setMinChunkSize ZimCreator.getMinChunkSize
    cases policy with
    | reject => left; simp [hs]
    | clamp floor => right; exact ⟨floor, rfl, hfloor.1, by simp [hs]⟩
  · intro t ht0 ht1
    have := hbound.2
    omega
  · intro hs
    unfold ZimCreator.setMinChunkSize ZimCreator.getMinChunkSize
    have hs2 : ¬ s ≤ 0 := by omega
    simp only [hs2, if_false, true_and]
    omega

theorem setMinChunkSize_spec_witness :
    ((-2147483648 : Int) ≤ -5 ∧ (-5 : Int) < 2147483648) ∧
    (MinChunkPolicy.clamp 1).floorOk ∧
    (0 < (ZimCreator.mk 1024).getMinChunkSize ∧ (ZimCreator.mk 1024).getMinChunkSize < 2147483648) ∧
    ((-5 : Int) ≤ 0 →
      (((ZimCreator.mk 1024).setMinChunkSize (.clamp 1) (-5)).1 = Except.error "ConfigError" ∧
        ((ZimCreator.mk 1024).setMinChunkSize (.clamp 1) (-5)).2 = ZimCreator.mk 1024) ∨
      (∃ floor, MinChunkPolicy.clamp 1 = .clamp floor ∧ 0 < floor ∧
        ((ZimCreator.mk 1024).setMinChunkSize (.clamp 1) (-5)).1 = Except.ok () ∧
        ((ZimCreator.mk 1024).setMinChunkSize (.clamp 1) (-5)).2.getMinChunkSize = floor)) ∧
    0 < ((ZimCreator.mk 1024).setMinChunkSize (.clamp 1) (-5)).2.getMinChunkSize ∧
    (∀ t : Int, -2147483648 ≤ t → t < 0 →
      (((ZimCreator.mk 1024).setMinChunkSize (.clamp 1) (-5)).2.getMinChunkSize : Int)
        ≠ t % 4294967296) ∧
    ((0 : Int) < -5 →
      ((ZimCreator.mk 1024).setMinChunkSize (.clamp 1) (-5)).1 = Except.ok () ∧
      (((ZimCreator.mk 1024).setMinChunkSize (.clamp 1) (-5)).2.getMinChunkSize : Int) = -5) :=
  ⟨by decide, by decide, by decide,
    setMinChunkSize_spec (.clamp 1) (ZimCreator.mk 1024) (-5) (by decide) (by decide) (by decide)⟩

/-- One call of `setMinChunkSize` keeps the value above 0 and within the range of `int`. -/
theorem setMinChunkSize_range (policy : MinChunkPolicy) (creator : ZimCreator) (s : Int)
    (hfloor : policy.floorOk)
    (hcur : 0 < creator.getMinChunkSize ∧ creator.getMinChunkSize < 2147483648)
    (hint : isInt s) :
    0 < (creator.setMinChunkSize policy s).2.getMinChunkSize ∧
    (creator.setMinChunkSize policy s).2.getMinChunkSize < 2147483648 := by
  obtain ⟨hlo, hhi⟩ := hint
  unfold ZimCreator.setMinChunkSize ZimCreator.getMinChunkSize at *
  by_cases hs : s ≤ 0
  · cases policy with
    | reject => simp only [hs, if_true]; exact hcur
    | clamp floor => simp only [hs, if_true]; exact hfloor
  · simp only [hs, if_false]
    omega

/-- Every sequence of calls keeps the value above 0 and within the range of `int`. -/
theorem afterCalls_range (policy : MinChunkPolicy) (hfloor : policy.floorOk)
    (calls : List Int) (hcalls : ∀ t ∈ calls, isInt t) (creator : ZimCreator)
    (hcur : 0 < creator.getMinChunkSize ∧ creator.getMinChunkSize < 2147483648) :
    0 < (creator.afterCalls policy calls).getMinChunkSize ∧
    (creator.afterCalls policy calls).getMinChunkSize < 2147483648 := by
  induction calls generalizing creator with
  | nil => exact hcur
  | cons t ts ih =>
    have ht : isInt t := hcalls t (List.mem_cons_self t ts)
    have hts : ∀ u ∈ ts, isInt u := fun u hu => hcalls u (List.mem_cons_of_mem t hu)
    exact ih hts _ (setMinChunkSize_range policy creator t hfloor hcur ht)

/-- A call made after a sequence of calls is the sequence extended by that call. -/
theorem afterCalls_append_one (policy : MinChunkPolicy) (creator : ZimCreator)
    (calls : List Int) (s : Int) :
    ((creator.afterCalls policy calls).setMinChunkSize policy s).2
      = creator.afterCalls policy (calls ++ [s]) := by
  simp [ZimCreator.afterCalls, List.foldl_append]

/-! ## Properties of the header codec -/

/-- C1. Round trip: for every header `h` a C++ `Fileheader` can hold that passes
`sanity_check`, `operator<<` writes 80 bytes and `Fileheader::read` applied to them (on any
receiving object) returns normally and leaves the object equal to `h` in every member. -/
theorem read_operator_shl_roundtrip (self h : Fileheader) (hwf : h.wf)
    (hs : h.sanity_check = Except.ok ()) :
    (operator_shl h).length = 80 ∧ self.read (operator_shl h) = (Except.ok (), h) := by
  refine ⟨operator_shl_length h hwf.1, ?_⟩
  have hsite : h.sanity_check_site = none := (outcome_eq_ok_iff _).1 hs
  have hr := read_site_operator_shl self h hwf
  unfold Fileheader.read
  rw [hr, hsite]
  rfl

theorem read_operator_shl_roundtrip_witness :
    exampleHeader.wf ∧ exampleHeader.sanity_check = Except.ok () ∧
      (operator_shl exampleHeader).length = 80 ∧
      zeroHeader.read (operator_shl exampleHeader) = (Except.ok (), exampleHeader) :=
  ⟨by decide, rfl, read_operator_shl_roundtrip zeroHeader exampleHeader (by decide) rfl⟩

/-- C2. Acceptance is exactly the stated rule set: for every 80-byte buffer, `Fileheader::read`
returns normally if and only if the 32-bit value at offset 0 is the magic 0x044d495a, the
16-bit value at offset 4 is 5, the 16-bit value at offset 6 is at least 0, and the decoded
fields satisfy the five invariants (articleCount = 0 iff clusterCount = 0; mimeListPos is 80
or 72; urlPtrPos, titleIdxPos and clusterPtrPos are at least mimeListPos; clusterCount is at
most articleCount; checksumPos is 0 or at least mimeListPos). -/
theorem read_accepts_iff (self : Fileheader) (buffer : Buffer) (hlen : buffer.length = 80) :
    (self.read buffer).1 = Except.ok () ↔
      (buffer.as 4 0 = 0x044d495a ∧ buffer.as 2 4 = 5 ∧ 0 ≤ buffer.as 2 6 ∧
       (buffer.as 4 24 = 0 ↔ buffer.as 4 28 = 0) ∧
       (buffer.as 8 56 = 80 ∨ buffer.as 8 56 = 72) ∧
       (buffer.as 8 56 ≤ buffer.as 8 32 ∧ buffer.as 8 56 ≤ buffer.as 8 40 ∧
        buffer.as 8 56 ≤ buffer.as 8 48) ∧
       buffer.as 4 28 ≤ buffer.as 4 24 ∧
       (buffer.as 8 72 = 0 ∨ buffer.as 8 56 ≤ buffer.as 8 72)) := by
  have _ := hlen
  unfold Fileheader.read
  rw [outcome_eq_ok_iff, read_site_eq]
  by_cases h0 : buffer.as 4 0 = 0x044d495a
  · by_cases h1 : buffer.as 2 4 = 5
    · simp only [h0, h1, ne_eq, not_true_eq_false, if_false, Nat.not_lt_zero, Nat.zero_le,
        true_and, sanity_check_site_eq_none_iff, all_rules_iff, assign_eq, and_assoc]
    · simp [h0, h1]
  · simp [h0]

theorem read_accepts_iff_witness :
    exampleBuffer.length = 80 ∧
    ((zeroHeader.read exampleBuffer).1 = Except.ok () ↔
      (exampleBuffer.as 4 0 = 0x044d495a ∧ exampleBuffer.as 2 4 = 5 ∧ 0 ≤ exampleBuffer.as 2 6 ∧
       (exampleBuffer.as 4 24 = 0 ↔ exampleBuffer.as 4 28 = 0) ∧
       (exampleBuffer.as 8 56 = 80 ∨ exampleBuffer.as 8 56 = 72) ∧
       (exampleBuffer.as 8 56 ≤ exampleBuffer.as 8 32 ∧ exampleBuffer.as 8 56 ≤ exampleBuffer.as 8 40 ∧
        exampleBuffer.as 8 56 ≤ exampleBuffer.as 8 48) ∧
       exampleBuffer.as 4 28 ≤ exampleBuffer.as 4 24 ∧
       (exampleBuffer.as 8 72 = 0 ∨ exampleBuffer.as 8 56 ≤ exampleBuffer.as 8 72))) :=
  ⟨by decide, read_accepts_iff zeroHeader exampleBuffer (by decide)⟩

/-- C3. Wire layout: for every header a C++ `Fileheader` can hold, `operator<<` writes exactly
80 bytes; bytes 8..23 are the uuid, 24..27 the little-endian 32-bit articleCount, 28..31 the
32-bit clusterCount, 32..39 the 64-bit urlPtrPos, 40..47 the 64-bit titleIdxPos, 48..55 the
64-bit clusterPtrPos, 56..63 the 64-bit mimeListPos, 64..67 the 32-bit mainPage, 68..71 the
32-bit layoutPage and 72..79 the 64-bit checksumPos (byte `i` of a field is its `i`-th
base-256 digit); the output is the concatenation of the thirteen fields, of widths
4, 2, 2, 16, 4, 4, 8, 8, 8, 8, 4, 4, 8, so they tile [0,80) without gap or overlap, and no byte
of the output depends on the initial content of the local array. -/
theorem operator_shl_wire_layout (fh : Fileheader) (hwf : fh.wf) :
    (operator_shl fh).length = 80 ∧
    (∀ i, i < 16 → byteAt (operator_shl fh) (8 + i) = byteAt fh.uuid i) ∧
    (∀ i, i < 4 → byteAt (operator_shl fh) (24 + i) = fh.articleCount / 256 ^ i % 256) ∧
    (∀ i, i < 4 → byteAt (operator_shl fh) (28 + i) = fh.blobCount / 256 ^ i % 256) ∧
    (∀ i, i < 8 → byteAt (operator_shl fh) (32 + i) = fh.urlPtrPos / 256 ^ i % 256) ∧
    (∀ i, i < 8 → byteAt (operator_shl fh) (40 + i) = fh.titleIdxPos / 256 ^ i % 256) ∧
    (∀ i, i < 8 → byteAt (operator_shl fh) (48 + i) = fh.blobPtrPos / 256 ^ i % 256) ∧
    (∀ i, i < 8 → byteAt (operator_shl fh) (56 + i) = fh.mimeListPos / 256 ^ i % 256) ∧
    (∀ i, i < 4 → byteAt (operator_shl fh) (64 + i) = fh.mainPage / 256 ^ i % 256) ∧
    (∀ i, i < 4 → byteAt (operator_shl fh) (68 + i) = fh.layoutPage / 256 ^ i % 256) ∧
    (∀ i, i < 8 → byteAt (operator_shl fh) (72 + i) = fh.checksumPos / 256 ^ i % 256) ∧
    operator_shl fh = concatFields fh.layout ∧
    fh.layout.map List.length = [4, 2, 2, 16, 4, 4, 8, 8, 8, 8, 4, 4, 8] ∧
    (∀ uninit : List Byte, uninit.length = 80 → (fh.fill uninit).take 80 = operator_shl fh) := by
  have hid : fh.uuid.length = 16 := hwf.1
  have hsl := headerSlices_operator_shl fh hid
  simp only [headerSlices, Fileheader.layout, List.cons.injEq, and_true] at hsl
  obtain ⟨-, -, -, s3, s4, s5, s6, s7, s8, s9, s10, s11, s12⟩ := hsl
  refine ⟨operator_shl_length fh hid, ?_, ?_, ?_, ?_, ?_, ?_, ?_, ?_, ?_, ?_,
    operator_shl_eq fh hid, ?_, ?_⟩
  · intro i hi
    rw [← byteAt_data _ 8 24 i (by omega), s3]
  · exact fun i hi => byteAt_of_data_eq _ 24 28 4 _ i s4 rfl hi
  · exact fun i hi => byteAt_of_data_eq _ 28 32 4 _ i s5 rfl hi
  · exact fun i hi => byteAt_of_data_eq _ 32 40 8 _ i s6 rfl hi
  · exact fun i hi => byteAt_of_data_eq _ 40 48 8 _ i s7 rfl hi
  · exact fun i hi => byteAt_of_data_eq _ 48 56 8 _ i s8 rfl hi
  · exact fun i hi => byteAt_of_data_eq _ 56 64 8 _ i s9 rfl hi
  · exact fun i hi => byteAt_of_data_eq _ 64 68 4 _ i s10 rfl hi
  · exact fun i hi => byteAt_of_data_eq _ 68 72 4 _ i s11 rfl hi
  · exact fun i hi => byteAt_of_data_eq _ 72 80 8 _ i s12 rfl hi
  · simp [Fileheader.layout, toLittleEndian_length, hid]
  · intro uninit hu
    have hlen : (concatFields fh.layout).length = 80 := by
      rw [← operator_shl_eq fh hid]; exact operator_shl_length fh hid
    rw [fill_eq uninit fh hu hid, operator_shl_eq fh hid, ← hlen, List.take_length]

theorem operator_shl_wire_layout_witness :
    exampleHeader.wf ∧
    (operator_shl exampleHeader).length = 80 ∧
    (∀ i, i < 16 → byteAt (operator_shl exampleHeader) (8 + i) = byteAt exampleHeader.uuid i) ∧
    (∀ i, i < 4 →
      byteAt (operator_shl exampleHeader) (24 + i) = exampleHeader.articleCount / 256 ^ i % 256) ∧
    (∀ i, i < 4 →
      byteAt (operator_shl exampleHeader) (28 + i) = exampleHeader.blobCount / 256 ^ i % 256) ∧
    (∀ i, i < 8 →
      byteAt (operator_shl exampleHeader) (32 + i) = exampleHeader.urlPtrPos / 256 ^ i % 256) ∧
    (∀ i, i < 8 →
      byteAt (operator_shl exampleHeader) (40 + i) = exampleHeader.titleIdxPos / 256 ^ i % 256) ∧
    (∀ i, i < 8 →
      byteAt (operator_shl exampleHeader) (48 + i) = exampleHeader.blobPtrPos / 256 ^ i % 256) ∧
    (∀ i, i < 8 →
      byteAt (operator_shl exampleHeader) (56 + i) = exampleHeader.mimeListPos / 256 ^ i % 256) ∧
    (∀ i, i < 4 →
      byteAt (operator_shl exampleHeader) (64 + i) = exampleHeader.mainPage / 256 ^ i % 256) ∧
    (∀ i, i < 4 →
      byteAt (operator_shl exampleHeader) (68 + i) = exampleHeader.layoutPage / 256 ^ i % 256) ∧
    (∀ i, i < 8 →
      byteAt (operator_shl exampleHeader) (72 + i) = exampleHeader.checksumPos / 256 ^ i % 256) ∧
    operator_shl exampleHeader = concatFields exampleHeader.layout ∧
    exampleHeader.layout.map List.length = [4, 2, 2, 16, 4, 4, 8, 8, 8, 8, 4, 4, 8] ∧
    (∀ uninit : List Byte, uninit.length = 80 →
      (exampleHeader.fill uninit).take 80 = operator_shl exampleHeader) :=
  ⟨by decide, operator_shl_wire_layout exampleHeader (by decide)⟩

/-- C4. Magic rejection: for every 80-byte buffer whose 32-bit value at offset 0 differs from
0x044d495a, `Fileheader::read` fails with the error "Invalid magic number", whatever the
other 76 bytes contain. -/
theorem read_invalid_magic (self : Fileheader) (buffer : Buffer) (hlen : buffer.length = 80)
    (hmagic : buffer.as 4 0 ≠ 0x044d495a) :
    (self.read buffer).1 = Except.error "Invalid magic number" := by
  have _ := hlen
  unfold Fileheader.read
  rw [read_site_eq, if_pos hmagic]
  rfl

theorem read_invalid_magic_witness :
    garbageBuffer.length = 80 ∧ garbageBuffer.as 4 0 ≠ 0x044d495a ∧
    garbageBuffer.as 2 4 ≠ 5 ∧
    (zeroHeader.read garbageBuffer).1 = Except.error "Invalid magic number" :=
  ⟨by decide, by decide, by decide, read_invalid_magic zeroHeader garbageBuffer (by decide) (by decide)⟩

/-- C5. Major-version rejection: for every 80-byte buffer with the correct magic whose 16-bit
value at offset 4 is not exactly 5, `Fileheader::read` fails with the error "Invalid version";
in particular, decrementing the major version of an accepted 80-byte buffer makes `read` fail
with that error. -/
theorem read_invalid_major_version (self : Fileheader) (buffer accepted : Buffer)
    (hlen : buffer.length = 80) (hmagic : buffer.as 4 0 = 0x044d495a)
    (hmajor : buffer.as 2 4 ≠ 5)
    (hlen_acc : accepted.length = 80) (hacc : (self.read accepted).1 = Except.ok ()) :
    (self.read buffer).1 = Except.error "Invalid version" ∧
    (self.read (decrementMajorVersion accepted)).1 = Except.error "Invalid version" := by
  have _ := hlen
  have key : ∀ b : Buffer, b.as 4 0 = 0x044d495a → b.as 2 4 ≠ 5 →
      (self.read b).1 = Except.error "Invalid version" := by
    intro b h0 h1
    unfold Fileheader.read
    rw [read_site_eq, if_neg (not_not.2 h0), if_pos h1]
    rfl
  refine ⟨key buffer hmagic hmajor, ?_⟩
  obtain ⟨a0, a1⟩ := read_ok_versions self accepted hacc
  have h4 : 4 ≤ accepted.length := by omega
  apply key
  · rw [decrementMajorVersion, as_writeAt_before _ _ 4 4 0 (by decide) h4, a0]
  · rw [decrementMajorVersion, as_writeAt_self accepted 4 2 _ (by omega), a1]
    decide

theorem read_invalid_major_version_witness :
    futureBuffer.length = 80 ∧ futureBuffer.as 4 0 = 0x044d495a ∧ futureBuffer.as 2 4 ≠ 5 ∧
    exampleBuffer.length = 80 ∧ (zeroHeader.read exampleBuffer).1 = Except.ok () ∧
    (zeroHeader.read futureBuffer).1 = Except.error "Invalid version" ∧
    (zeroHeader.read (decrementMajorVersion exampleBuffer)).1 = Except.error "Invalid version" :=
  ⟨by decide, by decide, by decide, by decide, rfl,
    read_invalid_major_version zeroHeader futureBuffer exampleBuffer (by decide) (by decide)
      (by decide) (by decide) rfl⟩

/-- C6. Minor-version tolerance: for every 80-byte buffer `b` that `Fileheader::read` accepts
and every 16-bit value `m` at least the minimum minor version, the buffer obtained from `b` by
storing `m` in bytes 6..7 is an 80-byte buffer of minor version `m` that `read` accepts and
that decodes to the same header members as `b`; and an 80-byte buffer whose minor version is
below the minimum is not accepted. -/
theorem read_minor_version_tolerance (self : Fileheader) (buffer : Buffer) (m : Nat)
    (hlen : buffer.length = 80) (hacc : (self.read buffer).1 = Except.ok ())
    (hm : m < 65536) (hmin : Fileheader.zimMinorVersion ≤ m) :
    (replaceMinorVersion buffer m).length = 80 ∧
    Buffer.as (replaceMinorVersion buffer m) 2 6 = m ∧
    (self.read (replaceMinorVersion buffer m)).1 = Except.ok () ∧
    (self.read (replaceMinorVersion buffer m)).2 = (self.read buffer).2 ∧
    (∀ other : Buffer, other.length = 80 → other.as 2 6 < Fileheader.zimMinorVersion →
      (self.read other).1 ≠ Except.ok ()) := by
  have _ := hmin
  obtain ⟨d0, d1, d2, d3⟩ := replaceMinorVersion_decode self buffer m hlen
  have hrs : self.read_site (replaceMinorVersion buffer m) = self.read_site buffer := by
    rw [read_site_eq, read_site_eq, d0, d1, d3]
    simp only [Nat.not_lt_zero, if_false]
  refine ⟨?_, ?_, ?_, ?_, ?_⟩
  · rw [replaceMinorVersion, writeAt_length _ _ _ (by simp [toLittleEndian_length]; omega), hlen]
  · rw [d2, Nat.mod_eq_of_lt hm]
  · unfold Fileheader.read at hacc ⊢
    rw [hrs]; exact hacc
  · unfold Fileheader.read
    rw [hrs]
  · intro other _ hlt
    exact absurd hlt (Nat.not_lt_zero _)

theorem read_minor_version_tolerance_witness :
    exampleBuffer.length = 80 ∧ (zeroHeader.read exampleBuffer).1 = Except.ok () ∧
    (replaceMinorVersion exampleBuffer 65535).length = 80 ∧
    Buffer.as (replaceMinorVersion exampleBuffer 65535) 2 6 = 65535 ∧
    (zeroHeader.read (replaceMinorVersion exampleBuffer 65535)).1 = Except.ok () ∧
    (zeroHeader.read (replaceMinorVersion exampleBuffer 65535)).2
      = (zeroHeader.read exampleBuffer).2 ∧
    (∀ other : Buffer, other.length = 80 → other.as 2 6 < Fileheader.zimMinorVersion →
      (zeroHeader.read other).1 ≠ Except.ok ()) :=
  ⟨by decide, rfl,
    read_minor_version_tolerance zeroHeader exampleBuffer 65535 (by decide) rfl (by decide)
      (by decide)⟩

/-- C7. Rule identification: for each of the seven sanity rules and every header a C++
`Fileheader` can hold that violates exactly that rule and satisfies all the others,
`sanity_check`, and `read` on the serialisation of the header, fail with the message of the
`throw` statement of that rule, and this message is the message of no other rule. -/
theorem sanity_check_identifies_rule (self h : Fileheader) (r : SanityRule) (hwf : h.wf)
    (hviol : ¬ r.holds h) (hothers : ∀ r2 : SanityRule, r2 ≠ r → r2.holds h) :
    h.sanity_check = Except.error r.site.what ∧
    (self.read (operator_shl h)).1 = Except.error r.site.what ∧
    (∀ r2 : SanityRule, r2 ≠ r → r2.site.what ≠ r.site.what) := by
  have hsite := sanity_check_site_of_single_violation h r hviol hothers
  refine ⟨?_, ?_, ?_⟩
  · rw [Fileheader.sanity_check, hsite]; rfl
  · rw [Fileheader.read, read_site_operator_shl self h hwf, hsite]; rfl
  · intro r2 hne heq
    exact hne (sanity_messages_injective r2 r heq)

theorem sanity_check_identifies_rule_witness :
    noClusterHeader.wf ∧ ¬ SanityRule.articleCluster.holds noClusterHeader ∧
    (∀ r2 : SanityRule, r2 ≠ .articleCluster → r2.holds noClusterHeader) ∧
    SanityRule.articleCluster.site.what = "No article <=> No cluster" ∧
    noClusterHeader.sanity_check = Except.error SanityRule.articleCluster.site.what ∧
    (zeroHeader.read (operator_shl noClusterHeader)).1
      = Except.error SanityRule.articleCluster.site.what ∧
    (∀ r2 : SanityRule, r2 ≠ .articleCluster →
      r2.site.what ≠ SanityRule.articleCluster.site.what) :=
  ⟨by decide, by decide, by intro r2; cases r2 <;> decide, rfl,
    sanity_check_identifies_rule zeroHeader noClusterHeader .articleCluster (by decide)
      (by decide) (by intro r2; cases r2 <;> decide)⟩

/-- C8. Distinguishable failures: the errors `read` reports for its distinct failure conditions
(magic mismatch, major version mismatch, minor version below minimum, each sanity rule) are
pairwise different: two 80-byte buffers whose first violated conditions differ never get the
same outcome, and the message of an error alone gives the condition that failed. The two
version checks share the message "Invalid version", but no buffer fails the minor-version
one, so the message always stands for the major-version mismatch. -/
theorem read_errors_identify_condition (self1 self2 : Fileheader) (b1 b2 : Buffer)
    (hlen1 : b1.length = 80) (hlen2 : b2.length = 80)
    (hdiff : firstViolated b1 ≠ firstViolated b2) :
    (self1.read b1).1 ≠ (self2.read b2).1 ∧
    (self1.read_site b1).1 ≠ (self2.read_site b2).1 ∧
    (∀ msg : String, (self1.read b1).1 = Except.error msg →
      firstViolated b1 = conditionOfError msg) ∧
    (∀ msg : String, (self2.read b2).1 = Except.error msg →
      firstViolated b2 = conditionOfError msg) := by
  have _ := hlen1
  have _ := hlen2
  have key : ∀ (self : Fileheader) (b : Buffer) (msg : String),
      (self.read b).1 = Except.error msg → firstViolated b = conditionOfError msg := by
    intro self b msg herr
    unfold Fileheader.read at herr
    obtain ⟨site, hsite, hwhat⟩ := (outcome_eq_error_iff _ _).1 herr
    have hne : site ≠ .minorVersion := by
      intro h
      exact read_site_ne_minorVersion self b (by rw [hsite, h])
    rw [← read_site_eq_firstViolated self b, hsite, ← hwhat, conditionOfError_what site hne]
  have e1 := read_site_eq_firstViolated self1 b1
  have e2 := read_site_eq_firstViolated self2 b2
  refine ⟨?_, by rw [e1, e2]; exact hdiff, key self1 b1, key self2 b2⟩
  intro heq
  unfold Fileheader.read at heq
  have := outcome_injective _ _ (read_site_ne_minorVersion self1 b1)
    (read_site_ne_minorVersion self2 b2) heq
  rw [e1, e2] at this
  exact hdiff this

theorem read_errors_identify_condition_witness :
    garbageBuffer.length = 80 ∧ futureBuffer.length = 80 ∧
    firstViolated garbageBuffer = some .magic ∧ firstViolated futureBuffer = some .majorVersion ∧
    (zeroHeader.read garbageBuffer).1 ≠ (exampleHeader.read futureBuffer).1 ∧
    (zeroHeader.read_site garbageBuffer).1 ≠ (exampleHeader.read_site futureBuffer).1 ∧
    (∀ msg : String, (zeroHeader.read garbageBuffer).1 = Except.error msg →
      firstViolated garbageBuffer = conditionOfError msg) ∧
    (∀ msg : String, (exampleHeader.read futureBuffer).1 = Except.error msg →
      firstViolated futureBuffer = conditionOfError msg) :=
  ⟨by decide, by decide, by decide, by decide,
    read_errors_identify_condition zeroHeader exampleHeader garbageBuffer futureBuffer
      (by decide) (by decide) (by decide)⟩

/-- C9, as stated, fails: `operator<<` emits the 80 bytes of a header that violates a sanity
invariant, and `read` rejects these bytes. -/
theorem operator_shl_emits_invalid_header :
    noArticleHeader.wf ∧
    noArticleHeader.sanity_check = Except.error "No article <=> No cluster" ∧
    (operator_shl noArticleHeader).length = 80 ∧
    Buffer.as (operator_shl noArticleHeader) 4 24 = 0 ∧
    Buffer.as (operator_shl noArticleHeader) 4 28 = 1 ∧
    (zeroHeader.read (operator_shl noArticleHeader)).1
      = Except.error "No article <=> No cluster" :=
  ⟨by decide, rfl, by decide, by decide, by decide, rfl⟩

/-- C9, amended. `operator<<` checks nothing: for every header a C++ `Fileheader` can hold,
valid or not, it emits 80 bytes; `read` decodes from them the same header and reports exactly
the outcome of `sanity_check` on that header, so the bytes are rejected by `read` precisely
when the header violates a sanity invariant. -/
theorem operator_shl_unchecked (self h : Fileheader) (hwf : h.wf) :
    (operator_shl h).length = 80 ∧
    (self.read (operator_shl h)).1 = h.sanity_check ∧
    (self.read (operator_shl h)).2 = h ∧
    ((self.read (operator_shl h)).1 = Except.ok () ↔ ∀ r : SanityRule, r.holds h) := by
  have hr := read_site_operator_shl self h hwf
  refine ⟨operator_shl_length h hwf.1, ?_, ?_, ?_⟩
  · rw [Fileheader.read, hr]; rfl
  · rw [Fileheader.read, hr]
  · rw [Fileheader.read, hr, outcome_eq_ok_iff, sanity_check_site_eq_none_iff]

theorem operator_shl_unchecked_witness :
    noArticleHeader.wf ∧
    (operator_shl noArticleHeader).length = 80 ∧
    (zeroHeader.read (operator_shl noArticleHeader)).1 = noArticleHeader.sanity_check ∧
    (zeroHeader.read (operator_shl noArticleHeader)).2 = noArticleHeader ∧
    ((zeroHeader.read (operator_shl noArticleHeader)).1 = Except.ok ()
      ↔ ∀ r : SanityRule, r.holds noArticleHeader) :=
  ⟨by decide, operator_shl_unchecked zeroHeader noArticleHeader (by decide)⟩

/-! ## Properties of `FilePart` -/

/-- C10. FilePart health: for every `FilePart`, `good()` is false exactly when `size()` is 0,
`fail()` is true exactly when `size()` is 0, and `good()` is the negation of `fail()`. -/
theorem filePart_good_fail (p : FilePart) :
    (p.good = false ↔ p.size = 0) ∧ (p.fail = true ↔ p.size = 0) ∧ p.good = !p.fail := by
  refine ⟨?_, ?_, ?_⟩
  · simp [FilePart.good, FilePart.size]
  · simp [FilePart.fail, FilePart.size]
  · simp [FilePart.good, FilePart.fail, bne]


/-! ## State of the object after a failed `read`, order of the checks -/

/-- C11, as stated, fails: `read` on the serialisation of a header without article but with
one cluster fails with "No article <=> No cluster", and the receiving object, all zero before
the call, holds the decoded members of the rejected buffer after it. -/
theorem read_failure_exposes_decoded_fields :
    (operator_shl noArticleHeader).length = 80 ∧
    (zeroHeader.read (operator_shl noArticleHeader)).1
      = Except.error "No article <=> No cluster" ∧
    (zeroHeader.read (operator_shl noArticleHeader)).2 = noArticleHeader ∧
    (zeroHeader.read (operator_shl noArticleHeader)).2 ≠ zeroHeader :=
  ⟨by decide, rfl, by decide, by decide⟩

/-- C11, amended. When `read` fails on an 80-byte buffer, either the magic or the major version
is wrong and the object holds the same member values as before the call, or both are right,
the error is the one `sanity_check` reports for the decoded header, and every member of the
object has been overwritten with the value decoded from the rejected buffer. -/
theorem read_failure_state (self : Fileheader) (buffer : Buffer) (msg : String)
    (hlen : buffer.length = 80) (hfail : (self.read buffer).1 = Except.error msg) :
    ((buffer.as 4 0 ≠ 0x044d495a ∨ buffer.as 2 4 ≠ 5) ∧ (self.read buffer).2 = self) ∨
    (buffer.as 4 0 = 0x044d495a ∧ buffer.as 2 4 = 5 ∧
      (self.assign buffer).sanity_check = Except.error msg ∧
      (self.read buffer).2 = self.assign buffer) := by
  have _ := hlen
  unfold Fileheader.read at hfail ⊢
  rcases read_site_cases self buffer with ⟨h0, hr⟩ | ⟨h0, h1, hr⟩ | ⟨h0, h1, hr⟩
  · left; rw [hr]; exact ⟨Or.inl h0, rfl⟩
  · left; rw [hr]; exact ⟨Or.inr h1, rfl⟩
  · right
    rw [hr] at hfail ⊢
    exact ⟨h0, h1, hfail, rfl⟩

theorem read_failure_state_witness :
    (operator_shl noArticleHeader).length = 80 ∧
    (zeroHeader.read (operator_shl noArticleHeader)).1
      = Except.error "No article <=> No cluster" ∧
    (((Buffer.as (operator_shl noArticleHeader) 4 0 ≠ 0x044d495a ∨
        Buffer.as (operator_shl noArticleHeader) 2 4 ≠ 5) ∧
      (zeroHeader.read (operator_shl noArticleHeader)).2 = zeroHeader) ∨
     (Buffer.as (operator_shl noArticleHeader) 4 0 = 0x044d495a ∧
      Buffer.as (operator_shl noArticleHeader) 2 4 = 5 ∧
      (zeroHeader.assign (operator_shl noArticleHeader)).sanity_check
        = Except.error "No article <=> No cluster" ∧
      (zeroHeader.read (operator_shl noArticleHeader)).2
        = zeroHeader.assign (operator_shl noArticleHeader))) :=
  ⟨by decide, rfl,
    read_failure_state zeroHeader (operator_shl noArticleHeader) "No article <=> No cluster"
      (by decide) rfl⟩

/-! ## Minimum chunk size -/

/-- C12. Minimum chunk size configuration, on the model of the specification. Take a creator
built by the constructor, whose default is a positive `int`, and configured by any sequence of
`setMinChunkSize` calls with `int` arguments; for every `int` `s`, `setMinChunkSize(s)` with
`s ≤ 0` is rejected, leaving the configuration as it was, or clamped to the floor, which is
positive; for `s > 0` it succeeds and `getMinChunkSize()` then returns `s`; and before as
after the call `getMinChunkSize()` is neither 0 nor the wrapped image of a negative `int`. -/
theorem minChunkSize_configuration (policy : MinChunkPolicy) (defaultSize : Nat)
    (calls : List Int) (s : Int)
    (hfloor : policy.floorOk) (hdefault : 0 < defaultSize ∧ defaultSize < 2147483648)
    (hcalls : ∀ t ∈ calls, isInt t) (hint : isInt s) :
    (s ≤ 0 →
      (((ZimCreator.reached policy defaultSize calls).setMinChunkSize policy s).1
          = Except.error "ConfigError" ∧
        ((ZimCreator.reached policy defaultSize calls).setMinChunkSize policy s).2
          = ZimCreator.reached policy defaultSize calls) ∨
      (∃ floor, policy = .clamp floor ∧ 0 < floor ∧
        ((ZimCreator.reached policy defaultSize calls).setMinChunkSize policy s).1
          = Except.ok () ∧
        ((ZimCreator.reached policy defaultSize calls).setMinChunkSize policy s).2.getMinChunkSize
          = floor)) ∧
    (0 < s →
      ((ZimCreator.reached policy defaultSize calls).setMinChunkSize policy s).1 = Except.ok () ∧
      (((ZimCreator.reached policy defaultSize calls).setMinChunkSize policy s).2.getMinChunkSize
        : Int) = s) ∧
    (ZimCreator.reached policy defaultSize calls).getMinChunkSize ≠ 0 ∧
    (∀ t : Int, isInt t → t < 0 →
      ((ZimCreator.reached policy defaultSize calls).getMinChunkSize : Int) ≠ t % 4294967296) ∧
    ((ZimCreator.reached policy defaultSize calls).setMinChunkSize policy s).2.getMinChunkSize
      ≠ 0 ∧
    (∀ t : Int, isInt t → t < 0 →
      (((ZimCreator.reached policy defaultSize calls).setMinChunkSize policy s).2.getMinChunkSize
        : Int) ≠ t % 4294967296) := by
  have hnew : 0 < (ZimCreator.construct defaultSize).getMinChunkSize ∧
      (ZimCreator.construct defaultSize).getMinChunkSize < 2147483648 := hdefault
  have hcur := afterCalls_range policy hfloor calls hcalls _ hnew
  have hafter := setMinChunkSize_range policy _ s hfloor hcur hint
  have hstep := setMinChunkSize_spec policy ((ZimCreator.construct defaultSize).afterCalls
    policy calls) s hint hfloor hcur
  unfold ZimCreator.reached
  refine ⟨hstep.1, hstep.2.2.2, by omega, ?_, by omega, ?_⟩
  · intro t ht hneg
    have h1 := ht.1
    have h2 := hcur.2
    omega
  · intro t ht hneg
    have h1 := ht.1
    have h2 := hafter.2
    omega

theorem minChunkSize_configuration_witness :
    MinChunkPolicy.reject.floorOk ∧ ((0 : Nat) < 1024 ∧ (1024 : Nat) < 2147483648) ∧
    (∀ t ∈ exampleCalls, isInt t) ∧ isInt (-1) ∧
    (ZimCreator.reached .reject 1024 exampleCalls).getMinChunkSize = 7 ∧
    ((-1 : Int) ≤ 0 →
      (((ZimCreator.reached .reject 1024 exampleCalls).setMinChunkSize .reject (-1)).1
          = Except.error "ConfigError" ∧
        ((ZimCreator.reached .reject 1024 exampleCalls).setMinChunkSize .reject (-1)).2
          = ZimCreator.reached .reject 1024 exampleCalls) ∨
      (∃ floor, MinChunkPolicy.reject = .clamp floor ∧ 0 < floor ∧
        ((ZimCreator.reached .reject 1024 exampleCalls).setMinChunkSize .reject (-1)).1
          = Except.ok () ∧
        ((ZimCreator.reached .reject 1024 exampleCalls).setMinChunkSize .reject
          (-1)).2.getMinChunkSize = floor)) ∧
    ((0 : Int) < -1 →
      ((ZimCreator.reached .reject 1024 exampleCalls).setMinChunkSize .reject (-1)).1
        = Except.ok () ∧
      (((ZimCreator.reached .reject 1024 exampleCalls).setMinChunkSize .reject
        (-1)).2.getMinChunkSize : Int) = -1) ∧
    (ZimCreator.reached .reject 1024 exampleCalls).getMinChunkSize ≠ 0 ∧
    (∀ t : Int, isInt t → t < 0 →
      ((ZimCreator.reached .reject 1024 exampleCalls).getMinChunkSize : Int)
        ≠ t % 4294967296) ∧
    ((ZimCreator.reached .reject 1024 exampleCalls).setMinChunkSize .reject
      (-1)).2.getMinChunkSize ≠ 0 ∧
    (∀ t : Int, isInt t → t < 0 →
      (((ZimCreator.reached .reject 1024 exampleCalls).setMinChunkSize .reject
        (-1)).2.getMinChunkSize : Int) ≠ t % 4294967296) :=
  ⟨by decide, by decide, by decide, by decide, by decide,
    minChunkSize_configuration .reject 1024 exampleCalls (-1) (by decide) (by decide)
      (by decide) (by decide)⟩

/-! ## Ordering of the positions -/

/-- C13, as stated, fails: a header whose three pointers and checksum position all equal
`mimeListPos` passes `sanity_check`, and `read` accepts its serialisation, although none of
the four positions is strictly greater than `mimeListPos`. -/
theorem sanity_check_accepts_equal_positions :
    equalPosHeader.wf ∧
    equalPosHeader.sanity_check = Except.ok () ∧
    (zeroHeader.read (operator_shl equalPosHeader)).1 = Except.ok () ∧
    ¬ (equalPosHeader.urlPtrPos > equalPosHeader.mimeListPos) ∧
    ¬ (equalPosHeader.titleIdxPos > equalPosHeader.mimeListPos) ∧
    ¬ (equalPosHeader.blobPtrPos > equalPosHeader.mimeListPos) ∧
    equalPosHeader.checksumPos ≠ 0 ∧
    ¬ (equalPosHeader.checksumPos > equalPosHeader.mimeListPos) :=
  ⟨by decide, rfl, rfl, by decide, by decide, by decide, by decide, by decide⟩

/-- C13, amended. Every header accepted by `sanity_check` has urlPtrPos, titleIdxPos and
clusterPtrPos greater than or equal to mimeListPos, and a non-zero checksumPos greater than or
equal to mimeListPos; equality is accepted. -/
theorem sanity_check_ordering (h : Fileheader) (hs : h.sanity_check = Except.ok ()) :
    h.mimeListPos ≤ h.urlPtrPos ∧ h.mimeListPos ≤ h.titleIdxPos ∧
    h.mimeListPos ≤ h.blobPtrPos ∧ (h.checksumPos ≠ 0 → h.mimeListPos ≤ h.checksumPos) := by
  obtain ⟨-, -, h3, h4, h5, -, h7⟩ := rules_of_sanity_check_ok h hs
  refine ⟨h3, h4, h5, ?_⟩
  intro hne
  rcases h7 with h0 | hle
  · exact absurd h0 hne
  · exact hle

theorem sanity_check_ordering_witness :
    equalPosHeader.sanity_check = Except.ok () ∧
    equalPosHeader.mimeListPos ≤ equalPosHeader.urlPtrPos ∧
    equalPosHeader.mimeListPos ≤ equalPosHeader.titleIdxPos ∧
    equalPosHeader.mimeListPos ≤ equalPosHeader.blobPtrPos ∧
    (equalPosHeader.checksumPos ≠ 0 → equalPosHeader.mimeListPos ≤ equalPosHeader.checksumPos) :=
  ⟨rfl, sanity_check_ordering equalPosHeader rfl⟩

/-! ## The minor-version check -/

/-- C14. Dead minor-version check: the minimum minor version is 0 and the field is unsigned,
so for no 80-byte buffer does `read` leave through the minor-version `throw` statement; every
"Invalid version" failure comes from the major-version check, on a buffer with the right magic
and a major version other than 5. -/
theorem read_minor_version_check_dead (self : Fileheader) (buffer : Buffer)
    (hlen : buffer.length = 80) :
    (self.read_site buffer).1 ≠ some .minorVersion ∧
    ¬ (buffer.as 2 6 < Fileheader.zimMinorVersion) ∧
    ((self.read buffer).1 = Except.error "Invalid version" →
      (self.read_site buffer).1 = some .majorVersion ∧
      buffer.as 4 0 = 0x044d495a ∧ buffer.as 2 4 ≠ 5) := by
  have _ := hlen
  have hne : (self.read_site buffer).1 ≠ some .minorVersion := by
    rcases read_site_cases self buffer with ⟨-, hr⟩ | ⟨-, -, hr⟩ | ⟨-, -, hr⟩
    · rw [hr]; simp
    · rw [hr]; simp
    · rw [hr]; exact (sanity_check_site_ne_early _).2.2
  refine ⟨hne, Nat.not_lt_zero _, ?_⟩
  intro herr
  unfold Fileheader.read at herr
  obtain ⟨site, hsite, hwhat⟩ := (outcome_eq_error_iff _ _).1 herr
  have hmajor : (self.read_site buffer).1 = some .majorVersion := by
    rcases site_of_invalid_version site hwhat with rfl | rfl
    · exact hsite
    · exact absurd hsite hne
  refine ⟨hmajor, ?_⟩
  rcases read_site_cases self buffer with ⟨-, hr⟩ | ⟨h0, h1, -⟩ | ⟨-, -, hr⟩
  · rw [hr] at hmajor; simp at hmajor
  · exact ⟨h0, h1⟩
  · rw [hr] at hmajor
    exact absurd hmajor (sanity_check_site_ne_early _).2.1

theorem read_minor_version_check_dead_witness :
    futureBuffer.length = 80 ∧
    (zeroHeader.read futureBuffer).1 = Except.error "Invalid version" ∧
    (zeroHeader.read_site futureBuffer).1 ≠ some .minorVersion ∧
    ¬ (futureBuffer.as 2 6 < Fileheader.zimMinorVersion) ∧
    ((zeroHeader.read futureBuffer).1 = Except.error "Invalid version" →
      (zeroHeader.read_site futureBuffer).1 = some .majorVersion ∧
      futureBuffer.as 4 0 = 0x044d495a ∧ futureBuffer.as 2 4 ≠ 5) :=
  ⟨by decide, rfl, read_minor_version_check_dead zeroHeader futureBuffer (by decide)⟩

/-! ## Serialising what was read -/

/-- C15. Reverse round trip normalises the version: for every 80-byte buffer `b` accepted by
`read`, `operator<<` applied to the decoded header yields `b` with bytes 6..7 replaced by 0,
every other byte unchanged, so the result equals `b` exactly when the minor version of `b`
is 0; and bytes 0..7 of the serialisation of every header are 5A 49 4D 04 05 00 00 00. -/
theorem operator_shl_read_normalises_version (self : Fileheader) (buffer : Buffer)
    (hlen : buffer.length = 80) (hacc : (self.read buffer).1 = Except.ok ()) :
    operator_shl (self.read buffer).2 = buffer.take 6 ++ [0, 0] ++ buffer.drop 8 ∧
    (operator_shl (self.read buffer).2 = buffer ↔ buffer.as 2 6 = 0) ∧
    (∀ h : Fileheader, h.wf →
      (operator_shl h).take 8 = [0x5a, 0x49, 0x4d, 0x04, 0x05, 0x00, 0x00, 0x00]) := by
  obtain ⟨h0, h1⟩ := read_ok_versions self buffer hacc
  have hpost : (self.read buffer).2 = self.assign buffer := by
    unfold Fileheader.read
    rcases read_site_cases self buffer with ⟨hn, -⟩ | ⟨-, hn, -⟩ | ⟨-, -, hr⟩
    · exact absurd h0 hn
    · exact absurd h1 hn
    · rw [hr]
  have hout := operator_shl_assign self buffer hlen h0 h1
  refine ⟨by rw [hpost, hout], ?_, ?_⟩
  · rw [hpost, hout]; exact zero_minor_iff buffer hlen
  · intro h hwf
    rw [operator_shl_eq h hwf.1]
    have e0 : toLittleEndian 4 Fileheader.zimMagic = [0x5a, 0x49, 0x4d, 0x04] := rfl
    have e1 : toLittleEndian 2 Fileheader.zimMajorVersion = [0x05, 0x00] := rfl
    have e2 : toLittleEndian 2 Fileheader.zimMinorVersion = [0x00, 0x00] := rfl
    simp only [Fileheader.layout, concatFields, e0, e1, e2]
    rfl

theorem operator_shl_read_normalises_version_witness :
    exampleBuffer.length = 80 ∧ (zeroHeader.read exampleBuffer).1 = Except.ok () ∧
    exampleBuffer.as 2 6 = 1 ∧
    operator_shl (zeroHeader.read exampleBuffer).2
      = exampleBuffer.take 6 ++ [0, 0] ++ exampleBuffer.drop 8 ∧
    (operator_shl (zeroHeader.read exampleBuffer).2 = exampleBuffer ↔ exampleBuffer.as 2 6 = 0) ∧
    (∀ h : Fileheader, h.wf →
      (operator_shl h).take 8 = [0x5a, 0x49, 0x4d, 0x04, 0x05, 0x00, 0x00, 0x00]) :=
  ⟨by decide, rfl, by decide,
    operator_shl_read_normalises_version zeroHeader exampleBuffer (by decide) rfl⟩

/-! ## Precedence of the checks -/

/-- C16. Fixed check precedence: on every 80-byte buffer the `throw` statement `read` reaches,
and so the error it reports, is that of the first violated condition in the order magic, major
version, minor version, article/cluster emptiness, mimeListPos value, urlPtrPos, titleIdxPos,
clusterPtrPos, clusterCount ≤ articleCount, checksumPos; in particular a buffer with the right
magic and major version, articleCount 0 and clusterCount above 0 is reported as
"No article <=> No cluster" and not as "Cluster count cannot be higher than article count.". -/
theorem read_reports_first_violation (self : Fileheader) (buffer : Buffer)
    (hlen : buffer.length = 80) :
    (self.read_site buffer).1 = firstViolated buffer ∧
    (self.read buffer).1 = ThrowSite.outcome (firstViolated buffer) ∧
    (buffer.as 4 0 = 0x044d495a → buffer.as 2 4 = 5 → buffer.as 4 24 = 0 → 0 < buffer.as 4 28 →
      (self.read buffer).1 = Except.error "No article <=> No cluster" ∧
      (self.read buffer).1
        ≠ Except.error "Cluster count cannot be higher than article count.") := by
  have _ := hlen
  have hfirst := read_site_eq_firstViolated self buffer
  refine ⟨hfirst, by rw [Fileheader.read, hfirst], ?_⟩
  intro h0 h1 hac hbc
  have hsite : (self.read_site buffer).1 = some .articleCluster := by
    rcases read_site_cases self buffer with ⟨hn, -⟩ | ⟨-, hn, -⟩ | ⟨-, -, hr⟩
    · exact absurd h0 hn
    · exact absurd h1 hn
    · rw [hr, sanity_check_site_eq, assign_eq]
      have hv : ¬ (buffer.as 4 24 = 0 ↔ buffer.as 4 28 = 0) := by
        rw [hac]; intro h; have := h.1 rfl; omega
      simp only [SanityRule.holds, hv, not_false_eq_true, if_true]
  have hread : (self.read buffer).1 = Except.error "No article <=> No cluster" := by
    rw [Fileheader.read, hsite]; rfl
  refine ⟨hread, ?_⟩
  rw [hread]
  intro h
  exact absurd (Except.error.inj h) (by decide)

theorem read_reports_first_violation_witness :
    manyViolationsBuffer.length = 80 ∧
    ThrowSite.majorVersion.violatedBy manyViolationsBuffer = true ∧
    ThrowSite.articleCluster.violatedBy manyViolationsBuffer = true ∧
    ThrowSite.mimeListPos.violatedBy manyViolationsBuffer = true ∧
    ThrowSite.clusterCount.violatedBy manyViolationsBuffer = true ∧
    ThrowSite.checksumPos.violatedBy manyViolationsBuffer = false ∧
    firstViolated manyViolationsBuffer = some .magic ∧
    (zeroHeader.read_site manyViolationsBuffer).1 = firstViolated manyViolationsBuffer ∧
    (zeroHeader.read manyViolationsBuffer).1
      = ThrowSite.outcome (firstViolated manyViolationsBuffer) ∧
    (manyViolationsBuffer.as 4 0 = 0x044d495a → manyViolationsBuffer.as 2 4 = 5 →
      manyViolationsBuffer.as 4 24 = 0 → 0 < manyViolationsBuffer.as 4 28 →
      (zeroHeader.read manyViolationsBuffer).1 = Except.error "No article <=> No cluster" ∧
      (zeroHeader.read manyViolationsBuffer).1
        ≠ Except.error "Cluster count cannot be higher than article count.") :=
  ⟨by decide, by decide, by decide, by decide, by decide, by decide, by decide,
    read_reports_first_violation zeroHeader manyViolationsBuffer (by decide)⟩

/-! ## Floor of the positions, early failures -/

/-- C17. Pointer floor: for every header accepted by `sanity_check`, urlPtrPos, titleIdxPos and
clusterPtrPos are at least 72 and checksumPos is 0 or at least 72; the bound is tight: the
header with mimeListPos 72 and the three pointers equal to 72, a position inside the 80-byte
header, is accepted. -/
theorem sanity_check_pointer_floor (h : Fileheader) (hs : h.sanity_check = Except.ok ()) :
    72 ≤ h.urlPtrPos ∧ 72 ≤ h.titleIdxPos ∧ 72 ≤ h.blobPtrPos ∧
    (h.checksumPos = 0 ∨ 72 ≤ h.checksumPos) ∧
    (floorHeader.wf ∧ floorHeader.sanity_check = Except.ok () ∧
      floorHeader.mimeListPos = 72 ∧ floorHeader.urlPtrPos = 72 ∧
      floorHeader.titleIdxPos = 72 ∧ floorHeader.blobPtrPos = 72 ∧
      floorHeader.urlPtrPos < Fileheader.size) := by
  obtain ⟨-, h2, h3, h4, h5, -, h7⟩ := rules_of_sanity_check_ok h hs
  refine ⟨by omega, by omega, by omega, ?_, by decide, rfl, rfl, rfl, rfl, rfl, by decide⟩
  rcases h7 with h0 | hle
  · exact Or.inl h0
  · exact Or.inr (by omega)

theorem sanity_check_pointer_floor_witness :
    floorHeader.sanity_check = Except.ok () ∧
    72 ≤ floorHeader.urlPtrPos ∧ 72 ≤ floorHeader.titleIdxPos ∧ 72 ≤ floorHeader.blobPtrPos ∧
    (floorHeader.checksumPos = 0 ∨ 72 ≤ floorHeader.checksumPos) ∧
    (floorHeader.wf ∧ floorHeader.sanity_check = Except.ok () ∧
      floorHeader.mimeListPos = 72 ∧ floorHeader.urlPtrPos = 72 ∧
      floorHeader.titleIdxPos = 72 ∧ floorHeader.blobPtrPos = 72 ∧
      floorHeader.urlPtrPos < Fileheader.size) :=
  ⟨rfl, sanity_check_pointer_floor floorHeader rfl⟩

/-- C18. Early failures leave the header untouched: when `read` fails on the magic check or on
a version check of an 80-byte buffer, it reports "Invalid magic number" or "Invalid version"
and every member of the object has the value it had before the call; the members are assigned
only on a buffer that passes all three checks, and then all of them are. -/
theorem read_early_failure_untouched (self : Fileheader) (buffer : Buffer)
    (hlen : buffer.length = 80)
    (hearly : buffer.as 4 0 ≠ Fileheader.zimMagic ∨ buffer.as 2 4 ≠ Fileheader.zimMajorVersion ∨
      buffer.as 2 6 < Fileheader.zimMinorVersion) :
    ((self.read_site buffer).1 = some .magic ∨ (self.read_site buffer).1 = some .majorVersion ∨
      (self.read_site buffer).1 = some .minorVersion) ∧
    ((self.read buffer).1 = Except.error "Invalid magic number" ∨
      (self.read buffer).1 = Except.error "Invalid version") ∧
    (self.read buffer).2 = self ∧
    (∀ other : Buffer, other.length = 80 → other.as 4 0 = Fileheader.zimMagic →
      other.as 2 4 = Fileheader.zimMajorVersion →
      ¬ (other.as 2 6 < Fileheader.zimMinorVersion) →
      (self.read other).2 = self.assign other) := by
  have _ := hlen
  refine ⟨?_, ?_, ?_, ?_⟩
  · rcases read_site_cases self buffer with ⟨-, hr⟩ | ⟨-, -, hr⟩ | ⟨h0, h1, -⟩
    · left; rw [hr]
    · right; left; rw [hr]
    · rcases hearly with hn | hn | hn
      · exact absurd h0 hn
      · exact absurd h1 hn
      · exact absurd hn (Nat.not_lt_zero _)
  · unfold Fileheader.read
    rcases read_site_cases self buffer with ⟨-, hr⟩ | ⟨-, -, hr⟩ | ⟨h0, h1, -⟩
    · left; rw [hr]; rfl
    · right; rw [hr]; rfl
    · rcases hearly with hn | hn | hn
      · exact absurd h0 hn
      · exact absurd h1 hn
      · exact absurd hn (Nat.not_lt_zero _)
  · unfold Fileheader.read
    rcases read_site_cases self buffer with ⟨-, hr⟩ | ⟨-, -, hr⟩ | ⟨h0, h1, -⟩
    · rw [hr]
    · rw [hr]
    · rcases hearly with hn | hn | hn
      · exact absurd h0 hn
      · exact absurd h1 hn
      · exact absurd hn (Nat.not_lt_zero _)
  · intro other _ h0 h1 _
    unfold Fileheader.read
    rcases read_site_cases self other with ⟨hn, -⟩ | ⟨-, hn, -⟩ | ⟨-, -, hr⟩
    · exact absurd h0 hn
    · exact absurd h1 hn
    · rw [hr]

theorem read_early_failure_untouched_witness :
    futureBuffer.length = 80 ∧
    (futureBuffer.as 4 0 ≠ Fileheader.zimMagic ∨
      futureBuffer.as 2 4 ≠ Fileheader.zimMajorVersion ∨
      futureBuffer.as 2 6 < Fileheader.zimMinorVersion) ∧
    ((exampleHeader.read_site futureBuffer).1 = some .magic ∨
      (exampleHeader.read_site futureBuffer).1 = some .majorVersion ∨
      (exampleHeader.read_site futureBuffer).1 = some .minorVersion) ∧
    ((exampleHeader.read futureBuffer).1 = Except.error "Invalid magic number" ∨
      (exampleHeader.read futureBuffer).1 = Except.error "Invalid version") ∧
    (exampleHeader.read futureBuffer).2 = exampleHeader ∧
    (∀ other : Buffer, other.length = 80 → other.as 4 0 = Fileheader.zimMagic →
      other.as 2 4 = Fileheader.zimMajorVersion →
      ¬ (other.as 2 6 < Fileheader.zimMinorVersion) →
      (exampleHeader.read other).2 = exampleHeader.assign other) :=
  ⟨by decide, by decide,
    read_early_failure_untouched exampleHeader futureBuffer (by decide) (by decide)⟩

end zim
